import Mathlib

/-!
Verification of `bigquery/api/load_data_by_post.py`.

The program has three functions:
* `make_post` (source lines 35-81): builds a multipart/related HTTP body by raw
  string concatenation and performs one HTTP POST;
* `poll_job` (source lines 86-104): polls job status once per second until the
  job state is `"DONE"`, raising `RuntimeError` when the terminal status carries
  an `errorResult` field;
* `main` (source lines 109-133): orchestration - issues the POST, and on
  status 200 parses the body as JSON and polls; otherwise prints the status code.

The embedding models Python strings as Lean `String`, the HTTP client as a
function argument (with an explicit log of issued requests), the stream of
job-status responses as a function `Nat → JobStatusResp`, and the unbounded
polling loop with explicit fuel (`none` = the loop is still running after
`fuel` iterations).
-/

/-- An HTTP request as assembled by `make_post`: URL, method, body and headers. -/
structure HttpRequest where
  url : String
  method : String
  body : String
  headers : List (String × String)

/-- Translation of the URL construction at source lines 48-49. -/
def make_post_url (project_id : String) : String :=
  "https://www.googleapis.com/upload/bigquery/v2/projects/" ++
  project_id ++ "/jobs"

/-- Translation of the body construction at source lines 51-74, string literal
by string literal in source order.  Python's `str(schema)` is the identity on
the `str` argument `schema`, so it is translated as `schema` itself. -/
def make_post_resource (schema data project_id dataset_id table_id : String) : String :=
  "--xxx\n" ++
  "Content-Type: application/json; charset=UTF-8\n" ++ "\n" ++
  "\x7b\n" ++
  "   \"configuration\": \x7b\n" ++
  "     \"load\": \x7b\n" ++
  "       \"schema\": \x7b\n" ++
  "         \"fields\": " ++ schema ++ "\n" ++
  "      \x7d,\n" ++
  "      \"destinationTable\": \x7b\n" ++
  "        \"projectId\": \"" ++ project_id ++ "\",\n" ++
  "        \"datasetId\": \"" ++ dataset_id ++ "\",\n" ++
  "        \"tableId\": \"" ++ table_id ++ "\"\n" ++
  "      \x7d\n" ++
  "    \x7d\n" ++
  "  \x7d\n" ++
  "\x7d\n" ++
  "--xxx\n" ++
  "Content-Type: application/octet-stream\n" ++
  "\n" ++
  data ++
  "--xxx--\n"

/-- Translation of the headers dict at source line 76. -/
def make_post_headers : List (String × String) :=
  [("Content-Type", "multipart/related; boundary=xxx")]

/-- The single request issued by `make_post` (source lines 78-81). -/
def make_post_request (schema data project_id dataset_id table_id : String) : HttpRequest :=
  ⟨make_post_url project_id, "POST",
   make_post_resource schema data project_id dataset_id table_id,
   make_post_headers⟩

/-- Translation of `make_post` (source lines 35-81).  The HTTP client is the
capability `http`; the result is the client's response to the single request
paired with the list of requests that the function issued (the source has
exactly one call site, `http.request(...)` at line 78, executed once). -/
def make_post {α : Type} (http : HttpRequest → α)
    (schema data project_id dataset_id table_id : String) : α × List HttpRequest :=
  let req := make_post_request schema data project_id dataset_id table_id
  (http req, [req])

/-- A JSON value.  Number and string literals keep their raw source characters
(string contents are stored between the quotes, with escape sequences left
uninterpreted); object keys are raw character lists. -/
inductive Json where
  | null : Json
  | bool (b : Bool) : Json
  | num (raw : List Char) : Json
  | str (raw : List Char) : Json
  | arr (elems : List Json) : Json
  | obj (mems : List (List Char × Json)) : Json

/-- JSON whitespace, as skipped between tokens. -/
def isWs (c : Char) : Bool :=
  c = ' ' || c = '\n' || c = '\t' || c = '\r'

/-- Characters that may continue a number literal. -/
def numChar (c : Char) : Bool :=
  c.isDigit || c = '-' || c = '+' || c = '.' || c = 'e' || c = 'E'

/-- Reads a string literal body up to the closing quote, keeping escape pairs
raw.  Input starts just after the opening quote; returns the raw contents and
the text after the closing quote. -/
def parseStrRaw : List Char → Option (List Char × List Char)
  | [] => none
  | c :: rest =>
    if c = '"' then some ([], rest)
    else if c = '\\' then
      match rest with
      | [] => none
      | e :: rest2 =>
        match parseStrRaw rest2 with
        | some (cs, r) => some (c :: e :: cs, r)
        | none => none
    else
      match parseStrRaw rest with
      | some (cs, r) => some (c :: cs, r)
      | none => none

mutual

/-- Fuel-indexed recursive-descent JSON value reader (a model of the JSON
grammar as consumed by Python's `json.loads`; simplified in that number
syntax is approximated by a maximal run of number characters and string
escapes are kept raw).  Returns the value and the unconsumed text; `none`
means a syntax error or exhausted fuel. -/
def parseVal : Nat → List Char → Option (Json × List Char)
  | 0, _ => none
  | fuel + 1, s =>
    match s.dropWhile isWs with
    | [] => none
    | c :: rest =>
      if c = '\x7b' then
        match rest.dropWhile isWs with
        | c2 :: r2 =>
          if c2 = '\x7d' then some (.obj [], r2)
          else
            match parseMembers fuel rest with
            | some (ms, r) => some (.obj ms, r)
            | none => none
        | [] => none
      else if c = '[' then
        match rest.dropWhile isWs with
        | c2 :: r2 =>
          if c2 = ']' then some (.arr [], r2)
          else
            match parseElems fuel rest with
            | some (vs, r) => some (.arr vs, r)
            | none => none
        | [] => none
      else if c = '"' then
        match parseStrRaw rest with
        | some (cs, r) => some (.str cs, r)
        | none => none
      else if c = 't' then
        if rest.take 3 = ['r', 'u', 'e'] then some (.bool true, rest.drop 3)
        else none
      else if c = 'f' then
        if rest.take 4 = ['a', 'l', 's', 'e'] then some (.bool false, rest.drop 4)
        else none
      else if c = 'n' then
        if rest.take 3 = ['u', 'l', 'l'] then some (.null, rest.drop 3)
        else none
      else if numChar c then
        some (.num (c :: rest.takeWhile numChar), rest.dropWhile numChar)
      else none

/-- Reads the members of a JSON object, starting after the opening brace of a
nonempty object; consumes the closing brace. -/
def parseMembers : Nat → List Char → Option (List (List Char × Json) × List Char)
  | 0, _ => none
  | fuel + 1, s =>
    match s.dropWhile isWs with
    | c :: rest =>
      if c = '"' then
        match parseStrRaw rest with
        | some (key, r1) =>
          match r1.dropWhile isWs with
          | c1 :: r2 =>
            if c1 = ':' then
              match parseVal fuel r2 with
              | some (v, r3) =>
                match r3.dropWhile isWs with
                | c3 :: r4 =>
                  if c3 = ',' then
                    match parseMembers fuel r4 with
                    | some (ms, r5) => some ((key, v) :: ms, r5)
                    | none => none
                  else if c3 = '\x7d' then some ([(key, v)], r4)
                  else none
                | [] => none
              | none => none
            else none
          | [] => none
        | none => none
      else none
    | [] => none

/-- Reads the elements of a JSON array, starting after the opening bracket of
a nonempty array; consumes the closing bracket. -/
def parseElems : Nat → List Char → Option (List Json × List Char)
  | 0, _ => none
  | fuel + 1, s =>
    match parseVal fuel s with
    | some (v, r) =>
      match r.dropWhile isWs with
      | c1 :: r2 =>
        if c1 = ',' then
          match parseElems fuel r2 with
          | some (vs, r3) => some (v :: vs, r3)
          | none => none
        else if c1 = ']' then some ([v], r2)
        else none
      | [] => none
    | none => none

end

/-- Extension of the input is harmless after a leftover that is nonempty, or
with a tail that does not begin with a number character. -/
def tailOk (r t : List Char) : Prop :=
  r ≠ [] ∨ ∀ c, t.head? = some c → numChar c = false

/-- Model of Python's `json.loads`: parse one JSON value and require that only
whitespace remains.  The fuel `s.data.length + 1` is always sufficient because
every recursive step of the reader consumes at least one character. -/
def jsonLoads (s : String) : Option Json :=
  match parseVal (s.data.length + 1) s.data with
  | some (v, r) => if r.all isWs then some v else none
  | none => none

/-- Dictionary lookup `j[key]`: `none` models both `KeyError` (missing key on
a dict) and `TypeError` (subscripting a non-dict). -/
def jLook (j : Json) (key : String) : Option Json :=
  match j with
  | .obj ms =>
    match ms.find? (fun m => m.1 = key.data) with
    | some m => some m.2
    | none => none
  | _ => none

/-- Checks that `job['jobReference']['projectId']` and
`job['jobReference']['jobId']` both exist, i.e. that the lookups at source
lines 92-93 do not raise. -/
def jobRefOk (job : Json) : Bool :=
  match jLook job "jobReference" with
  | some jr => (jLook jr "projectId").isSome && (jLook jr "jobId").isSome
  | none => false

/-- The part of a job-status response that `poll_job` reads:
`result['status']['state']` and, when present, `result['status']['errorResult']`
(kept verbatim as a JSON value). -/
structure JobStatusResp where
  state : String
  errorResult : Option Json

/-- Python exceptions that the program can raise and never catches. -/
inductive PyError where
  | jsonError : PyError
  | keyError : PyError
  | runtimeError (payload : Json) : PyError

/-- Observable effects of a run: lines printed, number of `request.execute`
status calls issued, and the durations of the `time.sleep` calls in order. -/
structure RunLog where
  printed : List String
  requests : Nat
  sleeps : List Nat

/-- Translation of the `while True:` loop of `poll_job` (source lines 95-104).
`i` is the index of the next status response (and the number of requests
already issued); `acc` accumulates sleep durations.  `none` means the loop is
still running after `fuel` iterations. -/
def pollLoop (responses : Nat → JobStatusResp) :
    Nat → Nat → List Nat → Option (Except PyError Unit × Nat × List Nat)
  | 0, _, _ => none
  | fuel + 1, i, acc =>
    let result := responses i
    if result.state = "DONE" then
      match result.errorResult with
      | some e => some (.error (.runtimeError e), i + 1, acc)
      | none => some (.ok (), i + 1, acc)
    else pollLoop responses fuel (i + 1) (acc ++ [1])

/-- Outcome of the first `"DONE"` iteration of the polling loop: raise
`RuntimeError(errorResult)` when `errorResult` is present, otherwise return. -/
def pollExit (st : JobStatusResp) : Except PyError Unit :=
  match st.errorResult with
  | some e => .error (.runtimeError e)
  | none => .ok ()

/-- Lines printed by `poll_job` up to and including the first `"DONE"`
iteration: the entry print, plus `'Job complete.'` on the non-error path. -/
def pollPrints (st : JobStatusResp) : List String :=
  match st.errorResult with
  | some _ => ["Waiting for job to finish..."]
  | none => ["Waiting for job to finish...", "Job complete."]

/-- Translation of `poll_job` (source lines 86-104).  The job-service handle
is modelled by the stream `responses` of status responses returned by
`request.execute` (the `num_retries=2` transport retries are internal to the
client library).  The key lookups at lines 92-93 happen before the loop, after
the `print` at line 89. -/
def poll_job (job : Json) (responses : Nat → JobStatusResp) (fuel : Nat) :
    Option (Except PyError Unit × RunLog) :=
  if jobRefOk job then
    match pollLoop responses fuel 0 [] with
    | some (.ok (), n, sl) =>
      some (.ok (), ⟨["Waiting for job to finish...", "Job complete."], n, sl⟩)
    | some (.error e, n, sl) => some (.error e, ⟨["Waiting for job to finish..."], n, sl⟩)
    | none => none
  else
    some (.error .keyError, ⟨["Waiting for job to finish..."], 0, []⟩)

/-- Translation of the response handling in `main` (source lines 128-133).
Credential acquisition, file reading and the POST itself (lines 110-126) have
already happened; `status` and `content` are the POST response.  An `Except`
error is an uncaught Python exception terminating the run. -/
def main_run (status : Nat) (content : String)
    (responses : Nat → JobStatusResp) (fuel : Nat) :
    Option (Except PyError Unit × RunLog) :=
  if status = 200 then
    match jsonLoads content with
    | none => some (.error .jsonError, ⟨[], 0, []⟩)
    | some job =>
      match poll_job job responses fuel with
      | some (.ok (), log) =>
        some (.ok (), ⟨log.printed ++ ["Success!"], log.requests, log.sleeps⟩)
      | some (.error e, log) => some (.error e, log)
      | none => none
  else
    some (.ok (), ⟨["Http error code: " ++ toString status], 0, []⟩)

/-- Example job document with a well-formed job reference. -/
def jobEx : Json :=
  Json.obj [("jobReference".data,
    Json.obj [("projectId".data, Json.str "p".data),
              ("jobId".data, Json.str "j".data)])]

/-- Example status script: `RUNNING`, `RUNNING`, then `DONE` with no error. -/
def scriptRRD : Nat → JobStatusResp :=
  fun i => if i < 2 then ⟨"RUNNING", none⟩ else ⟨"DONE", none⟩

/-- Example status script: immediately `DONE` with no error. -/
def scriptDone0 : Nat → JobStatusResp :=
  fun _ => ⟨"DONE", none⟩

/-- Example status script: never `DONE`. -/
def scriptRun : Nat → JobStatusResp :=
  fun _ => ⟨"RUNNING", none⟩

/-- Example status script: immediately `DONE` carrying an `errorResult`. -/
def scriptErr : Nat → JobStatusResp :=
  fun _ => ⟨"DONE", some (Json.str "boom".data)⟩

/-- One step of line splitting: a fold state is (closed lines, current open
line); a newline closes the open line. -/
def lineStep (st : List (List Char) × List Char) (c : Char) :
    List (List Char) × List Char :=
  if c = '\n' then (st.1 ++ [st.2], [])
  else (st.1, st.2 ++ [c])

/-- Splits a character list into its newline-separated lines (the final line
is the text after the last newline, possibly empty). -/
def linesOf (xs : List Char) : List (List Char) :=
  let st := xs.foldl lineStep ([], [])
  st.1 ++ [st.2]

/-- Closed lines of a text: the segments terminated by a newline. -/
def linesCl (xs : List Char) : List (List Char) :=
  (xs.foldl lineStep ([], [])).1

/-- Open line of a text: the text after its last newline (the whole text when
it has no newline). -/
def lineOp (xs : List Char) : List Char :=
  (xs.foldl lineStep ([], [])).2

/-- The part-boundary line of the multipart body. -/
def bnd : List Char := "--xxx".data

/-- The closing-boundary line of the multipart body. -/
def bndClose : List Char := "--xxx--".data

/-- The JSON configuration part of the body: the text between the blank line
after the first part header and the second boundary line of
`make_post_resource`. -/
def configPart (schema project_id dataset_id table_id : String) : String :=
  "\x7b\n" ++
  "   \"configuration\": \x7b\n" ++
  "     \"load\": \x7b\n" ++
  "       \"schema\": \x7b\n" ++
  "         \"fields\": " ++ schema ++ "\n" ++
  "      \x7d,\n" ++
  "      \"destinationTable\": \x7b\n" ++
  "        \"projectId\": \"" ++ project_id ++ "\",\n" ++
  "        \"datasetId\": \"" ++ dataset_id ++ "\",\n" ++
  "        \"tableId\": \"" ++ table_id ++ "\"\n" ++
  "      \x7d\n" ++
  "    \x7d\n" ++
  "  \x7d\n" ++
  "\x7d\n"

/-- Everything of the body that precedes the data payload: first boundary,
JSON part, second boundary, octet-stream header and its blank line. -/
def bodyHead (schema project_id dataset_id table_id : String) : String :=
  "--xxx\n" ++
  "Content-Type: application/json; charset=UTF-8\n" ++ "\n" ++
  configPart schema project_id dataset_id table_id ++
  "--xxx\n" ++
  "Content-Type: application/octet-stream\n" ++
  "\n"

theorem linesOf_sanity : linesOf "a\nb".data = [['a'], ['b']] := by decide

theorem linesOf_sanity2 : linesOf "x\n".data = [['x'], []] := by decide

/-- Unfolding the polling loop across the first `"DONE"` response: if the
responses at indices `i, …, i+n-1` are not `"DONE"` and the one at `i+n` is,
the loop issues `n+1` further requests, sleeps once (1 second) after each
non-`"DONE"` response, and exits as `pollExit` prescribes. -/
theorem pollLoop_shift (responses : Nat → JobStatusResp) :
    ∀ (n fuel i : Nat) (acc : List Nat),
    (∀ k, k < n → (responses (i + k)).state ≠ "DONE") →
    (responses (i + n)).state = "DONE" →
    n + 1 ≤ fuel →
    pollLoop responses fuel i acc =
      some (pollExit (responses (i + n)), i + n + 1, acc ++ List.replicate n 1) := by
  intro n
  induction n with
  | zero =>
    intro fuel i acc _ hdone hfuel
    cases fuel with
    | zero => omega
    | succ fuel =>
      simp only [pollLoop, Nat.add_zero] at *
      rw [if_pos hdone]
      cases h : (responses i).errorResult <;> simp [pollExit, h]
  | succ n ih =>
    intro fuel i acc hrun hdone hfuel
    obtain ⟨fuel, rfl⟩ : ∃ f, fuel = f + 1 := ⟨fuel - 1, by omega⟩
    simp only [pollLoop]
    rw [if_neg (by simpa using hrun 0 (Nat.succ_pos n))]
    have hrun2 : ∀ k, k < n → (responses (i + 1 + k)).state ≠ "DONE" := by
      intro k hk
      rw [show i + 1 + k = i + (k + 1) by omega]
      exact hrun (k + 1) (by omega)
    have hdone2 : (responses (i + 1 + n)).state = "DONE" := by
      rw [show i + 1 + n = i + (n + 1) by omega]; exact hdone
    rw [ih fuel (i + 1) (acc ++ [1]) hrun2 hdone2 (by omega)]
    rw [show i + 1 + n = i + (n + 1) by omega]
    simp [List.replicate_succ]

/-- If no response is ever `"DONE"`, the polling loop never exits, whatever
the fuel. -/
theorem pollLoop_forever (responses : Nat → JobStatusResp)
    (hrun : ∀ k, (responses k).state ≠ "DONE") :
    ∀ (fuel i : Nat) (acc : List Nat), pollLoop responses fuel i acc = none := by
  intro fuel
  induction fuel with
  | zero => intro i acc; rfl
  | succ fuel ih =>
    intro i acc
    simp only [pollLoop]
    rw [if_neg (hrun i)]
    exact ih (i + 1) (acc ++ [1])

/-- C2: for the status-response sequence `["RUNNING", "RUNNING", "DONE"` with
no `errorResult]`, `poll_job` issues exactly 3 status-get requests, sleeps
exactly twice (1 second each, one sleep after each non-`DONE` response), and
returns normally. -/
theorem poll_job_three_requests (job : Json) (responses : Nat → JobStatusResp)
    (fuel : Nat) (hjob : jobRefOk job = true)
    (h0 : (responses 0).state = "RUNNING")
    (h1 : (responses 1).state = "RUNNING")
    (h2 : responses 2 = ⟨"DONE", none⟩)
    (hfuel : 3 ≤ fuel) :
    poll_job job responses fuel =
      some (.ok (), ⟨["Waiting for job to finish...", "Job complete."], 3, [1, 1]⟩) := by
  have hstep := pollLoop_shift responses 2 fuel 0 []
    (fun k hk => by
      interval_cases k
      · rw [h0]; decide
      · rw [h1]; decide)
    (by show (responses 2).state = "DONE"; rw [h2])
    hfuel
  simp only [Nat.zero_add] at hstep
  rw [h2] at hstep
  unfold poll_job
  rw [hjob, if_pos rfl, hstep]
  rfl

/-- C2 witness: the concrete script `RUNNING, RUNNING, DONE` with fuel 3. -/
theorem poll_job_three_requests_witness :
    poll_job jobEx scriptRRD 3 =
      some (.ok (), ⟨["Waiting for job to finish...", "Job complete."], 3, [1, 1]⟩) :=
  poll_job_three_requests jobEx scriptRRD 3 (by decide) (by decide) (by decide)
    rfl (by decide)

/-- C3: for a first status response whose state is `DONE` and which carries an
`errorResult`, `poll_job` raises `RuntimeError` with exactly that payload
after exactly 1 status request and with no sleep. -/
theorem poll_job_error_result (job : Json) (responses : Nat → JobStatusResp)
    (e : Json) (fuel : Nat) (hjob : jobRefOk job = true)
    (h0state : (responses 0).state = "DONE")
    (h0err : (responses 0).errorResult = some e)
    (hfuel : 1 ≤ fuel) :
    poll_job job responses fuel =
      some (.error (.runtimeError e), ⟨["Waiting for job to finish..."], 1, []⟩) := by
  have hstep := pollLoop_shift responses 0 fuel 0 [] (by omega)
    (by simpa using h0state) hfuel
  simp only [Nat.zero_add] at hstep
  unfold poll_job
  rw [hjob, if_pos rfl, hstep]
  simp [pollExit, h0err]

/-- C3 witness: a script that is immediately `DONE` with an error payload. -/
theorem poll_job_error_result_witness :
    poll_job jobEx scriptErr 5 =
      some (.error (.runtimeError (Json.str "boom".data)),
        ⟨["Waiting for job to finish..."], 1, []⟩) :=
  poll_job_error_result jobEx scriptErr (Json.str "boom".data) 5 (by decide)
    (by decide) rfl (by decide)

/-- C6: `poll_job` exits exactly at the first `DONE` response (returning or
raising as that response prescribes, after one request per inspected response
and a fixed 1-second sleep after each non-`DONE` response, with no bound on
the number of iterations), and for a response stream that is never `DONE` it
runs forever: no fuel bound makes it exit. -/
theorem poll_job_terminates_iff :
    (∀ (job : Json) (responses : Nat → JobStatusResp) (n fuel : Nat),
      jobRefOk job = true →
      (∀ k, k < n → (responses k).state ≠ "DONE") →
      (responses n).state = "DONE" →
      n + 1 ≤ fuel →
      poll_job job responses fuel =
        some (pollExit (responses n),
          ⟨pollPrints (responses n), n + 1, List.replicate n 1⟩)) ∧
    (∀ (job : Json) (responses : Nat → JobStatusResp) (fuel : Nat),
      jobRefOk job = true →
      (∀ k, (responses k).state ≠ "DONE") →
      poll_job job responses fuel = none) := by
  constructor
  · intro job responses n fuel hjob hrun hdone hfuel
    have hstep := pollLoop_shift responses n fuel 0 []
      (fun k hk => by simpa using hrun k hk) (by simpa using hdone) hfuel
    simp only [Nat.zero_add] at hstep
    unfold poll_job
    rw [hjob, if_pos rfl, hstep]
    cases h : (responses n).errorResult <;> simp [pollExit, pollPrints, h]
  · intro job responses fuel hjob hrun
    unfold poll_job
    rw [hjob, if_pos rfl, pollLoop_forever responses hrun fuel 0 []]

/-- C6 witness: exit at the first `DONE` response for an immediately-`DONE`
script, and no exit at fuel 7 for a never-`DONE` script. -/
theorem poll_job_terminates_iff_witness :
    poll_job jobEx scriptDone0 1 =
      some (.ok (), ⟨["Waiting for job to finish...", "Job complete."], 1, []⟩) ∧
    poll_job jobEx scriptRun 7 = none := by
  constructor
  · exact poll_job_terminates_iff.1 jobEx scriptDone0 0 1 (by decide) (by omega)
      (by decide) (by decide)
  · exact poll_job_terminates_iff.2 jobEx scriptRun 7 (by decide)
      (fun k => by show ("RUNNING" : String) ≠ "DONE"; decide)

/-- C5: whenever the POST response status is not 200, `main` prints exactly one
message, consisting of `'Http error code: '` followed by the status code (so
the message contains the code), issues no status request, sleeps never, and
ends normally without raising. -/
theorem main_non200 (status : Nat) (content : String)
    (responses : Nat → JobStatusResp) (fuel : Nat) (h : status ≠ 200) :
    main_run status content responses fuel =
      some (.ok (), ⟨["Http error code: " ++ toString status], 0, []⟩) ∧
    ∃ pre suf, "Http error code: " ++ toString status =
      pre ++ (toString status ++ suf) := by
  refine ⟨?_, "Http error code: ", "", by simp⟩
  unfold main_run
  rw [if_neg h]

/-- C5 witness: status 404. -/
theorem main_non200_witness :
    main_run 404 "" scriptRun 0 =
      some (.ok (), ⟨["Http error code: " ++ toString 404], 0, []⟩) ∧
    ∃ pre suf, "Http error code: " ++ toString 404 =
      pre ++ (toString 404 ++ suf) :=
  main_non200 404 "" scriptRun 0 (by decide)

/-- C9: if the POST status is 200 but the response body is not valid JSON, or
parses to a document without the `jobReference.projectId` / `jobReference.jobId`
keys, `main` raises an uncaught exception before any status request is
issued. -/
theorem main_bad_body (content : String) (responses : Nat → JobStatusResp)
    (fuel : Nat)
    (h : jsonLoads content = none ∨
         ∃ j, jsonLoads content = some j ∧ jobRefOk j = false) :
    ∃ e log, main_run 200 content responses fuel = some (.error e, log) ∧
      log.requests = 0 ∧ log.sleeps = [] := by
  rcases h with h | ⟨j, hj, href⟩
  · exact ⟨.jsonError, ⟨[], 0, []⟩, by simp [main_run, h], rfl, rfl⟩
  · exact ⟨.keyError, ⟨["Waiting for job to finish..."], 0, []⟩,
      by simp [main_run, hj, poll_job, href], rfl, rfl⟩

/-- C9 witness: the body `"\x7b"` is not valid JSON. -/
theorem main_bad_body_witness :
    ∃ e log, main_run 200 "\x7b" scriptRun 9 = some (.error e, log) ∧
      log.requests = 0 ∧ log.sleeps = [] :=
  main_bad_body "\x7b" scriptRun 9 (Or.inl rfl)

/-- C8: `make_post` issues exactly one HTTP request; its URL is the upload
endpoint with the project id substituted, its method is POST, its only header
is the multipart content type, and the raw client response is returned. -/
theorem make_post_one_request {α : Type} (http : HttpRequest → α)
    (schema data project_id dataset_id table_id : String) :
    (make_post http schema data project_id dataset_id table_id).2 =
      [make_post_request schema data project_id dataset_id table_id] ∧
    (make_post http schema data project_id dataset_id table_id).2.length = 1 ∧
    (make_post_request schema data project_id dataset_id table_id).url =
      "https://www.googleapis.com/upload/bigquery/v2/projects/" ++
        project_id ++ "/jobs" ∧
    (make_post_request schema data project_id dataset_id table_id).method =
      "POST" ∧
    (make_post_request schema data project_id dataset_id table_id).headers =
      [("Content-Type", "multipart/related; boundary=xxx")] ∧
    (make_post http schema data project_id dataset_id table_id).1 =
      http (make_post_request schema data project_id dataset_id table_id) :=
  ⟨rfl, rfl, rfl, rfl, rfl, rfl⟩

/-- C10: the request constructed by `make_post` depends on nothing but the
five string arguments: two invocations with equal arguments, even against
different HTTP clients, issue identical requests (same URL, body and
headers). -/
theorem make_post_deterministic {α β : Type} (http1 : HttpRequest → α)
    (http2 : HttpRequest → β)
    (schema data project_id dataset_id table_id : String) :
    (make_post http1 schema data project_id dataset_id table_id).2 =
      (make_post http2 schema data project_id dataset_id table_id).2 :=
  rfl


/-- Auxiliary: `modifyHead` by the identity does nothing. -/
theorem modifyHead_ident (L : List (List Char)) :
    L.modifyHead (fun l => l) = L := by
  cases L <;> simp [List.modifyHead]

/-- Auxiliary: `modifyHead` composes. -/
theorem modifyHead_comp (f g : List Char → List Char) (L : List (List Char)) :
    (L.modifyHead g).modifyHead f = L.modifyHead (fun l => f (g l)) := by
  cases L <;> simp [List.modifyHead]

/-- Auxiliary: `modifyHead` preserves emptiness. -/
theorem modifyHead_eq_nil (f : List Char → List Char) (L : List (List Char)) :
    L.modifyHead f = [] ↔ L = [] := by
  cases L <;> simp [List.modifyHead]

/-- Auxiliary: `modifyHead` on an empty list. -/
theorem modifyHead_nil (f : List Char → List Char) :
    List.modifyHead f [] = [] := rfl

/-- Auxiliary: `modifyHead` on a cons. -/
theorem modifyHead_cons (f : List Char → List Char) (a : List Char)
    (l : List (List Char)) : List.modifyHead f (a :: l) = f a :: l := rfl

/-- A newline closes the open line. -/
theorem lineStep_nl (st : List (List Char) × List Char) :
    lineStep st '\n' = (st.1 ++ [st.2], []) := by
  simp [lineStep]

/-- Any other character extends the open line. -/
theorem lineStep_other (st : List (List Char) × List Char) (c : Char)
    (hc : ¬ c = '\n') : lineStep st c = (st.1, st.2 ++ [c]) := by
  simp [lineStep, hc]

/-- Folding `lineStep` over a text from an arbitrary state appends to the
accumulator the closed lines of the text, with the pending open line merged
into the first of them; the new open line is the text's open line, prefixed
by the pending open line when the text closes no line at all. -/
theorem foldl_lineStep_general :
    ∀ (xs : List Char) (acc : List (List Char)) (cur : List Char),
    xs.foldl lineStep (acc, cur) =
      (acc ++ (xs.foldl lineStep ([], [])).1.modifyHead (fun l => cur ++ l),
       if (xs.foldl lineStep ([], [])).1 = [] then
         cur ++ (xs.foldl lineStep ([], [])).2
       else (xs.foldl lineStep ([], [])).2) := by
  intro xs
  induction xs with
  | nil => intro acc cur; simp
  | cons c xs ih =>
    intro acc cur
    by_cases hc : c = '\n'
    · subst hc
      rw [List.foldl_cons, List.foldl_cons, lineStep_nl, lineStep_nl]
      rw [ih (acc ++ [cur]) [], ih ([] ++ [[]]) []]
      simp [modifyHead_ident, List.modifyHead, List.append_assoc]
    · rw [List.foldl_cons, List.foldl_cons, lineStep_other _ _ hc,
        lineStep_other _ _ hc]
      rw [ih acc (cur ++ [c]), ih [] ([] ++ [c])]
      by_cases h0 : (xs.foldl lineStep ([], [])).1 = []
      · simp [h0, List.modifyHead, List.append_assoc]
      · simp [h0, modifyHead_comp, modifyHead_eq_nil, List.append_assoc,
          Function.comp_def]

/-- Restatement of `foldl_lineStep_general` through `linesCl` and `lineOp`. -/
theorem lineStep_foldl_shift (xs : List Char)
    (st : List (List Char) × List Char) :
    xs.foldl lineStep st =
      (st.1 ++ (linesCl xs).modifyHead (fun l => st.2 ++ l),
       if linesCl xs = [] then st.2 ++ lineOp xs else lineOp xs) := by
  obtain ⟨acc, cur⟩ := st
  exact foldl_lineStep_general xs acc cur

/-- Every closed line produced by folding `lineStep` is an old accumulator
line, the pending open line extended by a prefix of the text, or a contiguous
segment of the text. -/
theorem foldl_lineStep_mem :
    ∀ (xs : List Char) (acc : List (List Char)) (cur : List Char)
      (l : List Char), l ∈ (xs.foldl lineStep (acc, cur)).1 →
    l ∈ acc ∨ (∃ p t, p ++ t = xs ∧ l = cur ++ p) ∨ (∃ s t, s ++ (l ++ t) = xs) := by
  intro xs
  induction xs with
  | nil => intro acc cur l hl; exact Or.inl hl
  | cons c xs ih =>
    intro acc cur l hl
    by_cases hc : c = '\n'
    · subst hc
      rw [List.foldl_cons, lineStep_nl] at hl
      rcases ih (acc ++ [cur]) [] l hl with h | ⟨p, t, hpt, hlp⟩ | ⟨s, t, hst⟩
      · rcases List.mem_append.mp h with h | h
        · exact Or.inl h
        · refine Or.inr (Or.inl ⟨[], '\n' :: xs, rfl, ?_⟩)
          simpa using List.mem_singleton.mp h
      · refine Or.inr (Or.inr ⟨['\n'], t, ?_⟩)
        simp [← hpt, hlp]
      · exact Or.inr (Or.inr ⟨'\n' :: s, t, by simp [← hst]⟩)
    · rw [List.foldl_cons, lineStep_other _ _ hc] at hl
      rcases ih acc (cur ++ [c]) l hl with h | ⟨p, t, hpt, hlp⟩ | ⟨s, t, hst⟩
      · exact Or.inl h
      · refine Or.inr (Or.inl ⟨c :: p, t, by simp [hpt], by simp [hlp]⟩)
      · exact Or.inr (Or.inr ⟨c :: s, t, by simp [← hst]⟩)

/-- The open component after folding `lineStep` is the pending open line
followed by the whole text, or a suffix of the text. -/
theorem foldl_lineStep_op :
    ∀ (xs : List Char) (acc : List (List Char)) (cur : List Char),
    (xs.foldl lineStep (acc, cur)).2 = cur ++ xs ∨
      ∃ s, s ++ (xs.foldl lineStep (acc, cur)).2 = xs := by
  intro xs
  induction xs with
  | nil => intro acc cur; simp
  | cons c xs ih =>
    intro acc cur
    by_cases hc : c = '\n'
    · subst hc
      rw [List.foldl_cons, lineStep_nl]
      rcases ih (acc ++ [cur]) [] with h | ⟨s, hs⟩
      · rw [h]
        exact Or.inr ⟨['\n'], by simp⟩
      · exact Or.inr ⟨'\n' :: s, by simp [hs]⟩
    · rw [List.foldl_cons, lineStep_other _ _ hc]
      rcases ih acc (cur ++ [c]) with h | ⟨s, hs⟩
      · rw [h]
        exact Or.inl (by simp)
      · exact Or.inr ⟨c :: s, by simp [hs]⟩

/-- Every closed line of a text occurs contiguously inside the text. -/
theorem linesCl_sub (xs l : List Char) (hl : l ∈ linesCl xs) :
    ∃ s t, s ++ (l ++ t) = xs := by
  rcases foldl_lineStep_mem xs [] [] l hl with h | ⟨p, t, hpt, hlp⟩ | h
  · simp at h
  · exact ⟨[], t, by simp [← hpt, hlp]⟩
  · exact h

/-- The open line of a text is one of its suffixes. -/
theorem lineOp_suffix (xs : List Char) : ∃ s, s ++ lineOp xs = xs := by
  rcases foldl_lineStep_op xs [] [] with h | h
  · exact ⟨[], by simpa [lineOp] using h⟩
  · exact h

/-- A text that is empty or ends in a newline has an empty open line. -/
theorem lineOp_nil_end (xs : List Char)
    (h : xs = [] ∨ xs.getLast? = some '\n') : lineOp xs = [] := by
  rcases h with rfl | h
  · rfl
  · obtain ⟨ys, rfl⟩ := (List.getLast?_eq_some_iff).mp h
    unfold lineOp
    rw [List.foldl_append]
    simp [lineStep]

/-- Counting a target among closed lines of a hole text, merged under any head
transformation that never produces the target: zero as long as the target is
not a contiguous segment of the hole text. -/
theorem count_modifyHead_zero (t : List Char) (f : List Char → List Char)
    (xs : List Char) (hf : ∀ a, f a ≠ t)
    (hxs : ¬ ∃ s u, s ++ (t ++ u) = xs) :
    List.count t (List.modifyHead f (linesCl xs)) = 0 := by
  rcases h : linesCl xs with _ | ⟨a, l⟩
  · simp [List.modifyHead]
  · rw [List.modifyHead, List.count_cons]
    have h2 : List.count t l = 0 := by
      rw [List.count_eq_zero]
      intro hmem
      exact hxs (linesCl_sub xs t (by rw [h]; exact List.mem_cons_of_mem a hmem))
    simp [h2, hf a]

/-- Counting a target among the closed lines of a text: zero as long as the
target is not a contiguous segment of the text. -/
theorem count_linesCl_zero (t xs : List Char)
    (hxs : ¬ ∃ s u, s ++ (t ++ u) = xs) :
    List.count t (linesCl xs) = 0 := by
  rw [List.count_eq_zero]
  intro hmem
  exact hxs (linesCl_sub xs t hmem)

/-- The open line of a text never equals a target that is not a contiguous
segment of the text. -/
theorem lineOp_ne (t xs : List Char) (hxs : ¬ ∃ s u, s ++ (t ++ u) = xs) :
    lineOp xs ≠ t := by
  intro h
  obtain ⟨s, hs⟩ := lineOp_suffix xs
  exact hxs ⟨s, [], by simp [← h, hs]⟩

/-- Occurrence of the closing boundary implies occurrence of the part
boundary. -/
theorem bndClose_occur_imp (xs : List Char)
    (h : ¬ ∃ s u, s ++ (bnd ++ u) = xs) :
    ¬ ∃ s u, s ++ (bndClose ++ u) = xs := by
  rintro ⟨s, u, hsu⟩
  exact h ⟨s, '-' :: '-' :: u, by simpa [bnd, bndClose] using hsu⟩

/-- Infix freedom in the Mathlib form implies occurrence freedom. -/
theorem not_occur_of_not_infix (t xs : List Char) (h : ¬ t <:+: xs) :
    ¬ ∃ s u, s ++ (t ++ u) = xs := by
  rintro ⟨s, u, hsu⟩
  exact h ⟨s, u, by simpa [List.append_assoc] using hsu⟩

/-- Two lists with distinct last characters differ, even after prefixing. -/
theorem append_getLast_ne (p q t : List Char) (c d : Char)
    (hq : q.getLast? = some c) (ht : t.getLast? = some d) (hcd : c ≠ d) :
    p ++ q ≠ t := by
  intro h
  apply hcd
  have h1 : (p ++ q).getLast? = t.getLast? := by rw [h]
  rw [List.getLast?_append_of_ne_nil, hq, ht] at h1
  · exact Option.some.inj h1
  · intro hq0
    rw [hq0] at hq
    simp at hq

set_option maxRecDepth 4000 in
theorem c1_stage (S D P Ds T : String)
    (hS : ¬ bnd <:+: S.data) (hD : ¬ bnd <:+: D.data)
    (hP : ¬ bnd <:+: P.data) (hDs : ¬ bnd <:+: Ds.data)
    (hT : ¬ bnd <:+: T.data) :
    (linesOf (make_post_resource S D P Ds T).data).count bnd = 2 ∧
    ((D.data = [] ∨ D.data.getLast? = some '\n') →
      (linesOf (make_post_resource S D P Ds T).data).count bndClose = 1) := by
  have hdata : (make_post_resource S D P Ds T).data =
      ("--xxx\n" : String).data ++
      (("Content-Type: application/json; charset=UTF-8\n" : String).data ++
      (("\n" : String).data ++
      (("\x7b\n" : String).data ++
      (("   \"configuration\": \x7b\n" : String).data ++
      (("     \"load\": \x7b\n" : String).data ++
      (("       \"schema\": \x7b\n" : String).data ++
      (("         \"fields\": " : String).data ++
      (S.data ++
      (("\n" : String).data ++
      (("      \x7d,\n" : String).data ++
      (("      \"destinationTable\": \x7b\n" : String).data ++
      (("        \"projectId\": \"" : String).data ++
      (P.data ++
      (("\",\n" : String).data ++
      (("        \"datasetId\": \"" : String).data ++
      (Ds.data ++
      (("\",\n" : String).data ++
      (("        \"tableId\": \"" : String).data ++
      (T.data ++
      (("\"\n" : String).data ++
      (("      \x7d\n" : String).data ++
      (("    \x7d\n" : String).data ++
      (("  \x7d\n" : String).data ++
      (("\x7d\n" : String).data ++
      (("--xxx\n" : String).data ++
      (("Content-Type: application/octet-stream\n" : String).data ++
      (("\n" : String).data ++
      (D.data ++
      ("--xxx--\n" : String).data)))))))))))))))))))))))))))) := by
    simp [make_post_resource, String.data_append, List.append_assoc]
  unfold linesOf
  rw [hdata]
  simp only [List.foldl_append]
  simp only [lineStep_foldl_shift]
  simp only [show linesCl ("--xxx\n" : String).data = ["--xxx".data] from by decide,
    show lineOp ("--xxx\n" : String).data = [] from by decide,
    show linesCl ("Content-Type: application/json; charset=UTF-8\n" : String).data =
      ["Content-Type: application/json; charset=UTF-8".data] from by decide,
    show lineOp ("Content-Type: application/json; charset=UTF-8\n" : String).data = [] from by decide,
    show linesCl ("\n" : String).data = [[]] from by decide,
    show lineOp ("\n" : String).data = [] from by decide,
    show linesCl ("\x7b\n" : String).data = ["\x7b".data] from by decide,
    show lineOp ("\x7b\n" : String).data = [] from by decide,
    show linesCl ("   \"configuration\": \x7b\n" : String).data =
      ["   \"configuration\": \x7b".data] from by decide,
    show lineOp ("   \"configuration\": \x7b\n" : String).data = [] from by decide,
    show linesCl ("     \"load\": \x7b\n" : String).data =
      ["     \"load\": \x7b".data] from by decide,
    show lineOp ("     \"load\": \x7b\n" : String).data = [] from by decide,
    show linesCl ("       \"schema\": \x7b\n" : String).data =
      ["       \"schema\": \x7b".data] from by decide,
    show lineOp ("       \"schema\": \x7b\n" : String).data = [] from by decide,
    show linesCl ("         \"fields\": " : String).data = [] from by decide,
    show lineOp ("         \"fields\": " : String).data =
      ("         \"fields\": " : String).data from by decide,
    show linesCl ("      \x7d,\n" : String).data = ["      \x7d,".data] from by decide,
    show lineOp ("      \x7d,\n" : String).data = [] from by decide,
    show linesCl ("      \"destinationTable\": \x7b\n" : String).data =
      ["      \"destinationTable\": \x7b".data] from by decide,
    show lineOp ("      \"destinationTable\": \x7b\n" : String).data = [] from by decide,
    show linesCl ("        \"projectId\": \"" : String).data = [] from by decide,
    show lineOp ("        \"projectId\": \"" : String).data =
      ("        \"projectId\": \"" : String).data from by decide,
    show linesCl ("\",\n" : String).data = ["\",".data] from by decide,
    show lineOp ("\",\n" : String).data = [] from by decide,
    show linesCl ("        \"datasetId\": \"" : String).data = [] from by decide,
    show lineOp ("        \"datasetId\": \"" : String).data =
      ("        \"datasetId\": \"" : String).data from by decide,
    show linesCl ("        \"tableId\": \"" : String).data = [] from by decide,
    show lineOp ("        \"tableId\": \"" : String).data =
      ("        \"tableId\": \"" : String).data from by decide,
    show linesCl ("\"\n" : String).data = ["\"".data] from by decide,
    show lineOp ("\"\n" : String).data = [] from by decide,
    show linesCl ("      \x7d\n" : String).data = ["      \x7d".data] from by decide,
    show lineOp ("      \x7d\n" : String).data = [] from by decide,
    show linesCl ("    \x7d\n" : String).data = ["    \x7d".data] from by decide,
    show lineOp ("    \x7d\n" : String).data = [] from by decide,
    show linesCl ("  \x7d\n" : String).data = ["  \x7d".data] from by decide,
    show lineOp ("  \x7d\n" : String).data = [] from by decide,
    show linesCl ("\x7d\n" : String).data = ["\x7d".data] from by decide,
    show lineOp ("\x7d\n" : String).data = [] from by decide,
    show linesCl ("Content-Type: application/octet-stream\n" : String).data =
      ["Content-Type: application/octet-stream".data] from by decide,
    show lineOp ("Content-Type: application/octet-stream\n" : String).data = [] from by decide,
    show linesCl ("--xxx--\n" : String).data = ["--xxx--".data] from by decide,
    show lineOp ("--xxx--\n" : String).data = [] from by decide]
  simp only [modifyHead_nil, modifyHead_cons, List.nil_append, List.append_nil,
    List.cons_ne_nil, if_false, ite_self, reduceIte, modifyHead_ident]
  have hS2 : ¬ ∃ s u, s ++ (['-', '-', 'x', 'x', 'x'] ++ u) = S.data := by
    simpa [bnd] using not_occur_of_not_infix _ _ hS
  have hP2 : ¬ ∃ s u, s ++ (['-', '-', 'x', 'x', 'x'] ++ u) = P.data := by
    simpa [bnd] using not_occur_of_not_infix _ _ hP
  have hDs2 : ¬ ∃ s u, s ++ (['-', '-', 'x', 'x', 'x'] ++ u) = Ds.data := by
    simpa [bnd] using not_occur_of_not_infix _ _ hDs
  have hT2 : ¬ ∃ s u, s ++ (['-', '-', 'x', 'x', 'x'] ++ u) = T.data := by
    simpa [bnd] using not_occur_of_not_infix _ _ hT
  have hD2 : ¬ ∃ s u, s ++ (['-', '-', 'x', 'x', 'x'] ++ u) = D.data := by
    simpa [bnd] using not_occur_of_not_infix _ _ hD
  have hS3 : ¬ ∃ s u, s ++ (['-', '-', 'x', 'x', 'x', '-', '-'] ++ u) = S.data := by
    simpa [bnd, bndClose] using
      bndClose_occur_imp _ (by simpa [bnd] using not_occur_of_not_infix _ _ hS)
  have hP3 : ¬ ∃ s u, s ++ (['-', '-', 'x', 'x', 'x', '-', '-'] ++ u) = P.data := by
    simpa [bnd, bndClose] using
      bndClose_occur_imp _ (by simpa [bnd] using not_occur_of_not_infix _ _ hP)
  have hDs3 : ¬ ∃ s u, s ++ (['-', '-', 'x', 'x', 'x', '-', '-'] ++ u) = Ds.data := by
    simpa [bnd, bndClose] using
      bndClose_occur_imp _ (by simpa [bnd] using not_occur_of_not_infix _ _ hDs)
  have hT3 : ¬ ∃ s u, s ++ (['-', '-', 'x', 'x', 'x', '-', '-'] ++ u) = T.data := by
    simpa [bnd, bndClose] using
      bndClose_occur_imp _ (by simpa [bnd] using not_occur_of_not_infix _ _ hT)
  have hD3 : ¬ ∃ s u, s ++ (['-', '-', 'x', 'x', 'x', '-', '-'] ++ u) = D.data := by
    simpa [bnd, bndClose] using
      bndClose_occur_imp _ (by simpa [bnd] using not_occur_of_not_infix _ _ hD)
  constructor
  · simp only [bnd]
    simp
    have eS : List.count ['-', '-', 'x', 'x', 'x']
        (List.modifyHead (fun l => ' ' :: ' ' :: ' ' :: ' ' :: ' ' :: ' ' :: ' ' :: ' ' :: ' ' :: '\"' :: 'f' :: 'i' :: 'e' :: 'l' :: 'd' :: 's' :: '\"' :: ':' :: ' ' :: l) (linesCl S.data)) = 0 :=
      count_modifyHead_zero _ _ _ (fun a => by simp) hS2
    have eP : List.count ['-', '-', 'x', 'x', 'x']
        (List.modifyHead (fun l => ' ' :: ' ' :: ' ' :: ' ' :: ' ' :: ' ' :: ' ' :: ' ' :: '\"' :: 'p' :: 'r' :: 'o' :: 'j' :: 'e' :: 'c' :: 't' :: 'I' :: 'd' :: '\"' :: ':' :: ' ' :: '\"' :: l) (linesCl P.data)) = 0 :=
      count_modifyHead_zero _ _ _ (fun a => by simp) hP2
    have eDs : List.count ['-', '-', 'x', 'x', 'x']
        (List.modifyHead (fun l => ' ' :: ' ' :: ' ' :: ' ' :: ' ' :: ' ' :: ' ' :: ' ' :: '\"' :: 'd' :: 'a' :: 't' :: 'a' :: 's' :: 'e' :: 't' :: 'I' :: 'd' :: '\"' :: ':' :: ' ' :: '\"' :: l) (linesCl Ds.data)) = 0 :=
      count_modifyHead_zero _ _ _ (fun a => by simp) hDs2
    have eT : List.count ['-', '-', 'x', 'x', 'x']
        (List.modifyHead (fun l => ' ' :: ' ' :: ' ' :: ' ' :: ' ' :: ' ' :: ' ' :: ' ' :: '\"' :: 't' :: 'a' :: 'b' :: 'l' :: 'e' :: 'I' :: 'd' :: '\"' :: ':' :: ' ' :: '\"' :: l) (linesCl T.data)) = 0 :=
      count_modifyHead_zero _ _ _ (fun a => by simp) hT2
    have eD : List.count ['-', '-', 'x', 'x', 'x'] (linesCl D.data) = 0 :=
      count_linesCl_zero _ _ hD2
    have jS : (if linesCl S.data = [] then ' ' :: ' ' :: ' ' :: ' ' :: ' ' :: ' ' :: ' ' :: ' ' :: ' ' :: '\"' :: 'f' :: 'i' :: 'e' :: 'l' :: 'd' :: 's' :: '\"' :: ':' :: ' ' :: lineOp S.data
        else lineOp S.data) ≠ ['-', '-', 'x', 'x', 'x'] := by
      split
      · simp
      · exact lineOp_ne _ _ hS2
    have jP : ((if linesCl P.data = [] then ' ' :: ' ' :: ' ' :: ' ' :: ' ' :: ' ' :: ' ' :: ' ' :: '\"' :: 'p' :: 'r' :: 'o' :: 'j' :: 'e' :: 'c' :: 't' :: 'I' :: 'd' :: '\"' :: ':' :: ' ' :: '\"' :: lineOp P.data
        else lineOp P.data) ++ ['\"', ',']) ≠ ['-', '-', 'x', 'x', 'x'] :=
      append_getLast_ne _ _ _ ',' 'x' rfl rfl (by decide)
    have jDs : ((if linesCl Ds.data = [] then ' ' :: ' ' :: ' ' :: ' ' :: ' ' :: ' ' :: ' ' :: ' ' :: '\"' :: 'd' :: 'a' :: 't' :: 'a' :: 's' :: 'e' :: 't' :: 'I' :: 'd' :: '\"' :: ':' :: ' ' :: '\"' :: lineOp Ds.data
        else lineOp Ds.data) ++ ['\"', ',']) ≠ ['-', '-', 'x', 'x', 'x'] :=
      append_getLast_ne _ _ _ ',' 'x' rfl rfl (by decide)
    have jT : ((if linesCl T.data = [] then ' ' :: ' ' :: ' ' :: ' ' :: ' ' :: ' ' :: ' ' :: ' ' :: '\"' :: 't' :: 'a' :: 'b' :: 'l' :: 'e' :: 'I' :: 'd' :: '\"' :: ':' :: ' ' :: '\"' :: lineOp T.data
        else lineOp T.data) ++ ['\"']) ≠ ['-', '-', 'x', 'x', 'x'] :=
      append_getLast_ne _ _ _ '\"' 'x' rfl rfl (by decide)
    have jDc : (lineOp D.data ++ ['-', '-', 'x', 'x', 'x', '-', '-']) ≠
        ['-', '-', 'x', 'x', 'x'] :=
      append_getLast_ne _ _ _ '-' 'x' rfl rfl (by decide)
    simp only [List.count_cons, List.count_append, List.count_nil, beq_iff_eq,
      eS, eP, eDs, eT, eD]
    simp [jS, jP, jDs, jT, jDc]
  · intro hDnl
    have hop : lineOp D.data = [] := lineOp_nil_end D.data hDnl
    simp only [hop, List.nil_append]
    simp only [bndClose]
    simp
    have eSc : List.count ['-', '-', 'x', 'x', 'x', '-', '-']
        (List.modifyHead (fun l => ' ' :: ' ' :: ' ' :: ' ' :: ' ' :: ' ' :: ' ' :: ' ' :: ' ' :: '\"' :: 'f' :: 'i' :: 'e' :: 'l' :: 'd' :: 's' :: '\"' :: ':' :: ' ' :: l) (linesCl S.data)) = 0 :=
      count_modifyHead_zero _ _ _ (fun a => by simp) hS3
    have ePc : List.count ['-', '-', 'x', 'x', 'x', '-', '-']
        (List.modifyHead (fun l => ' ' :: ' ' :: ' ' :: ' ' :: ' ' :: ' ' :: ' ' :: ' ' :: '\"' :: 'p' :: 'r' :: 'o' :: 'j' :: 'e' :: 'c' :: 't' :: 'I' :: 'd' :: '\"' :: ':' :: ' ' :: '\"' :: l) (linesCl P.data)) = 0 :=
      count_modifyHead_zero _ _ _ (fun a => by simp) hP3
    have eDsc : List.count ['-', '-', 'x', 'x', 'x', '-', '-']
        (List.modifyHead (fun l => ' ' :: ' ' :: ' ' :: ' ' :: ' ' :: ' ' :: ' ' :: ' ' :: '\"' :: 'd' :: 'a' :: 't' :: 'a' :: 's' :: 'e' :: 't' :: 'I' :: 'd' :: '\"' :: ':' :: ' ' :: '\"' :: l) (linesCl Ds.data)) = 0 :=
      count_modifyHead_zero _ _ _ (fun a => by simp) hDs3
    have eTc : List.count ['-', '-', 'x', 'x', 'x', '-', '-']
        (List.modifyHead (fun l => ' ' :: ' ' :: ' ' :: ' ' :: ' ' :: ' ' :: ' ' :: ' ' :: '\"' :: 't' :: 'a' :: 'b' :: 'l' :: 'e' :: 'I' :: 'd' :: '\"' :: ':' :: ' ' :: '\"' :: l) (linesCl T.data)) = 0 :=
      count_modifyHead_zero _ _ _ (fun a => by simp) hT3
    have eDc : List.count ['-', '-', 'x', 'x', 'x', '-', '-'] (linesCl D.data) = 0 :=
      count_linesCl_zero _ _ hD3
    have jSc : (if linesCl S.data = [] then ' ' :: ' ' :: ' ' :: ' ' :: ' ' :: ' ' :: ' ' :: ' ' :: ' ' :: '\"' :: 'f' :: 'i' :: 'e' :: 'l' :: 'd' :: 's' :: '\"' :: ':' :: ' ' :: lineOp S.data
        else lineOp S.data) ≠ ['-', '-', 'x', 'x', 'x', '-', '-'] := by
      split
      · simp
      · exact lineOp_ne _ _ hS3
    have jPc : ((if linesCl P.data = [] then ' ' :: ' ' :: ' ' :: ' ' :: ' ' :: ' ' :: ' ' :: ' ' :: '\"' :: 'p' :: 'r' :: 'o' :: 'j' :: 'e' :: 'c' :: 't' :: 'I' :: 'd' :: '\"' :: ':' :: ' ' :: '\"' :: lineOp P.data
        else lineOp P.data) ++ ['\"', ',']) ≠ ['-', '-', 'x', 'x', 'x', '-', '-'] :=
      append_getLast_ne _ _ _ ',' '-' rfl rfl (by decide)
    have jDsc : ((if linesCl Ds.data = [] then ' ' :: ' ' :: ' ' :: ' ' :: ' ' :: ' ' :: ' ' :: ' ' :: '\"' :: 'd' :: 'a' :: 't' :: 'a' :: 's' :: 'e' :: 't' :: 'I' :: 'd' :: '\"' :: ':' :: ' ' :: '\"' :: lineOp Ds.data
        else lineOp Ds.data) ++ ['\"', ',']) ≠ ['-', '-', 'x', 'x', 'x', '-', '-'] :=
      append_getLast_ne _ _ _ ',' '-' rfl rfl (by decide)
    have jTc : ((if linesCl T.data = [] then ' ' :: ' ' :: ' ' :: ' ' :: ' ' :: ' ' :: ' ' :: ' ' :: '\"' :: 't' :: 'a' :: 'b' :: 'l' :: 'e' :: 'I' :: 'd' :: '\"' :: ':' :: ' ' :: '\"' :: lineOp T.data
        else lineOp T.data) ++ ['\"']) ≠ ['-', '-', 'x', 'x', 'x', '-', '-'] :=
      append_getLast_ne _ _ _ '\"' '-' rfl rfl (by decide)
    simp only [List.count_cons, List.count_append, List.count_nil, beq_iff_eq,
      eSc, ePc, eDsc, eTc, eDc]
    simp [jSc, jPc, jDsc, jTc]

set_option maxRecDepth 4000 in
/-- The constructed body splits as: everything before the payload (ending with
the octet-stream header and its blank line), then the payload verbatim, then
the closing boundary line. -/
theorem resource_split (S D P Ds T : String) :
    make_post_resource S D P Ds T =
      bodyHead S P Ds T ++ D ++ "--xxx--\n" := by
  apply String.ext
  simp [make_post_resource, bodyHead, configPart, String.data_append,
    List.append_assoc]

/-- C1 (amended): when the boundary token `--xxx` occurs nowhere in the schema
text, payload, or identifiers, the body built by `make_post` contains exactly
two part-boundary lines `--xxx`; if moreover the payload is empty or ends
with a newline, it contains exactly one closing-boundary line `--xxx--`; and
the payload appears byte-for-byte, unmodified, immediately after the blank
line of the octet-stream part (the body is the head, which ends with the
octet-stream header and a blank line, then the payload, then the closing
boundary). -/
theorem make_post_resource_boundary_lines (S D P Ds T : String)
    (hS : ¬ bnd <:+: S.data) (hD : ¬ bnd <:+: D.data)
    (hP : ¬ bnd <:+: P.data) (hDs : ¬ bnd <:+: Ds.data)
    (hT : ¬ bnd <:+: T.data) :
    (linesOf (make_post_resource S D P Ds T).data).count bnd = 2 ∧
    ((D.data = [] ∨ D.data.getLast? = some '\n') →
      (linesOf (make_post_resource S D P Ds T).data).count bndClose = 1) ∧
    make_post_resource S D P Ds T =
      bodyHead S P Ds T ++ D ++ "--xxx--\n" :=
  ⟨(c1_stage S D P Ds T hS hD hP hDs hT).1,
   (c1_stage S D P Ds T hS hD hP hDs hT).2,
   resource_split S D P Ds T⟩

/-- C1 counterexample: for the data payload `"--xxx\n"` the body contains
three part-boundary lines, not two; and for the boundary-free payload `"a"`
with no trailing newline, the payload glues onto the closing boundary, so the
body contains no closing-boundary line at all, not one. -/
theorem make_post_resource_boundary_lines_cex :
    ((linesOf (make_post_resource "[]" "--xxx\n" "p" "d" "t").data).count bnd ≠ 2 ∧
     (linesOf (make_post_resource "[]" "--xxx\n" "p" "d" "t").data).count bnd = 3) ∧
    (¬ bnd <:+: ("a" : String).data ∧
     (linesOf (make_post_resource "[]" "a" "p" "d" "t").data).count bndClose ≠ 1 ∧
     (linesOf (make_post_resource "[]" "a" "p" "d" "t").data).count bndClose = 0) := by
  refine ⟨⟨?_, ?_⟩, ?_, ?_, ?_⟩ <;> decide

/-- C1 witness: a benign newline-terminated CSV payload, with the
trailing-newline side condition of the closing-boundary conjunct discharged
concretely. -/
theorem make_post_resource_boundary_lines_witness :
    (linesOf (make_post_resource "[]" "a,b\n1,2\n" "p" "d" "t").data).count bnd = 2 ∧
    (linesOf (make_post_resource "[]" "a,b\n1,2\n" "p" "d" "t").data).count bndClose = 1 ∧
    make_post_resource "[]" "a,b\n1,2\n" "p" "d" "t" =
      bodyHead "[]" "p" "d" "t" ++ "a,b\n1,2\n" ++ "--xxx--\n" :=
  ⟨(make_post_resource_boundary_lines "[]" "a,b\n1,2\n" "p" "d" "t"
      (by decide) (by decide) (by decide) (by decide) (by decide)).1,
   (make_post_resource_boundary_lines "[]" "a,b\n1,2\n" "p" "d" "t"
      (by decide) (by decide) (by decide) (by decide) (by decide)).2.1
     (Or.inr (by decide)),
   (make_post_resource_boundary_lines "[]" "a,b\n1,2\n" "p" "d" "t"
      (by decide) (by decide) (by decide) (by decide) (by decide)).2.2⟩

/-- Dropping leading characters distributes over append when something remains. -/
theorem dw_app (p : Char → Bool) (l1 l2 : List Char) (c : Char)
    (rest : List Char) (h : l1.dropWhile p = c :: rest) :
    (l1 ++ l2).dropWhile p = c :: (rest ++ l2) := by
  rw [List.dropWhile_append, h]
  simp

/-- A list with a nonempty dropWhile is nonempty. -/
theorem ne_nil_of_dropWhile (p : Char → Bool) (l : List Char) (c : Char)
    (rest : List Char) (h : l.dropWhile p = c :: rest) : l ≠ [] := by
  intro h0
  subst h0
  simp at h

/-- takeWhile over an append stops inside the first part when the first part
contains a failing character. -/
theorem tw_app_of_stop (p : Char → Bool) (l1 l2 : List Char)
    (h : l1.dropWhile p ≠ []) :
    (l1 ++ l2).takeWhile p = l1.takeWhile p := by
  induction l1 with
  | nil => simp at h
  | cons a l ih =>
    by_cases hp : p a
    · simp only [List.dropWhile_cons, hp, if_true] at h
      simp [List.takeWhile_cons, hp, ih h]
    · simp [List.takeWhile_cons, hp]

/-- takeWhile over an append passes the whole first part when every character
of it satisfies the predicate. -/
theorem tw_app_of_all (p : Char → Bool) (l1 l2 : List Char)
    (h : l1.dropWhile p = []) :
    (l1 ++ l2).takeWhile p = l1 ++ l2.takeWhile p := by
  induction l1 with
  | nil => simp
  | cons a l ih =>
    by_cases hp : p a
    · simp only [List.dropWhile_cons, hp, if_true] at h
      simp [List.takeWhile_cons, hp, ih h]
    · simp [List.dropWhile_cons, hp] at h

/-- takeWhile keeps everything when dropWhile drops everything. -/
theorem tw_of_all (p : Char → Bool) (l : List Char) (h : l.dropWhile p = []) :
    l.takeWhile p = l := by
  have := List.takeWhile_append_dropWhile (p := p) (l := l)
  rw [h] at this
  simpa using this

/-- A tail whose head fails the predicate is untouched by takeWhile and
dropWhile. -/
theorem hd_not_take (p : Char → Bool) (t : List Char)
    (ht : ∀ c, t.head? = some c → p c = false) :
    t.takeWhile p = [] ∧ t.dropWhile p = t := by
  cases t with
  | nil => simp
  | cons c t2 =>
    have := ht c rfl
    simp [List.takeWhile_cons, List.dropWhile_cons, this]

/-- dropWhile over an append skips the whole first part when every character
of it satisfies the predicate. -/
theorem dw_app_of_all (p : Char → Bool) (l1 l2 : List Char)
    (h : l1.dropWhile p = []) :
    (l1 ++ l2).dropWhile p = l2.dropWhile p := by
  rw [List.dropWhile_append, h]
  simp

/-- A list whose first three characters are known splits accordingly. -/
theorem take3_split (rest : List Char) (a b c : Char)
    (h : rest.take 3 = [a, b, c]) : rest = a :: b :: c :: rest.drop 3 := by
  rcases rest with _ | ⟨x, _ | ⟨y, _ | ⟨z, r⟩⟩⟩ <;> simp_all

/-- A list whose first four characters are known splits accordingly. -/
theorem take4_split (rest : List Char) (a b c d : Char)
    (h : rest.take 4 = [a, b, c, d]) :
    rest = a :: b :: c :: d :: rest.drop 4 := by
  rcases rest with _ | ⟨x, _ | ⟨y, _ | ⟨z, _ | ⟨w, r⟩⟩⟩⟩ <;> simp_all

/-- String-literal reading is unaffected by extending the input. -/
theorem parseStrRaw_ext : ∀ (s cs r t : List Char),
    parseStrRaw s = some (cs, r) →
    parseStrRaw (s ++ t) = some (cs, r ++ t) := by
  intro s
  induction s using parseStrRaw.induct with
  | case1 => intro cs r t h; simp [parseStrRaw] at h
  | case2 rest2 =>
    intro cs r t h
    rw [parseStrRaw.eq_def] at h
    rw [parseStrRaw.eq_def]
    dsimp only [List.cons_append] at h ⊢
    simp at h ⊢
    exact ⟨h.1, by rw [h.2]⟩
  | case3 hne =>
    intro cs r t h
    rw [parseStrRaw.eq_def] at h
    dsimp only at h
    simp at h
  | case4 e rest2 cs0 r0 hx hne ih =>
    intro cs r t h
    rw [parseStrRaw.eq_def] at h
    rw [parseStrRaw.eq_def]
    dsimp only [List.cons_append] at h ⊢
    rw [hx] at h
    rw [ih cs0 r0 t hx]
    simp at h ⊢
    exact ⟨by rw [← h.1], by rw [h.2]⟩
  | case5 e rest2 hx hne ih =>
    intro cs r t h
    rw [parseStrRaw.eq_def] at h
    dsimp only at h
    rw [hx] at h
    simp at h
  | case6 e rest2 hne1 hne2 cs0 r0 hx ih =>
    intro cs r t h
    rw [parseStrRaw.eq_def] at h
    rw [parseStrRaw.eq_def]
    dsimp only [List.cons_append] at h ⊢
    rw [if_neg hne1, if_neg hne2] at h ⊢
    rw [hx] at h
    rw [ih cs0 r0 t hx]
    simp at h ⊢
    exact ⟨by rw [← h.1], by rw [h.2]⟩
  | case7 e rest2 hne1 hne2 hx ih =>
    intro cs r t h
    rw [parseStrRaw.eq_def] at h
    dsimp only at h
    rw [if_neg hne1, if_neg hne2] at h
    rw [hx] at h
    simp at h

/-- Reading a string literal with no quote and no backslash consumes exactly
the text up to the closing quote. -/
theorem parseStrRaw_closed : ∀ (cs r : List Char),
    (∀ c ∈ cs, ¬ c = '"' ∧ ¬ c = '\\') →
    parseStrRaw (cs ++ '"' :: r) = some (cs, r) := by
  intro cs
  induction cs with
  | nil =>
    intro r _
    rw [parseStrRaw.eq_def]
    dsimp only [List.nil_append]
    simp
  | cons c cs ih =>
    intro r h
    obtain ⟨h1, h2⟩ := h c (List.mem_cons_self c cs)
    rw [parseStrRaw.eq_def]
    dsimp only [List.cons_append]
    rw [if_neg h1, if_neg h2]
    rw [ih r (fun x hx => h x (List.mem_cons_of_mem c hx))]

/-- A successful member parse starts at a quote. -/
theorem parseMembers_inv (fuel : Nat) (s : List Char)
    (x : List (List Char × Json) × List Char)
    (h : parseMembers fuel s = some x) :
    ∃ k, List.dropWhile isWs s = '"' :: k := by
  cases fuel with
  | zero => simp [parseMembers] at h
  | succ fuel =>
    rw [parseMembers.eq_def] at h
    dsimp only at h
    cases hdw : List.dropWhile isWs s with
    | nil => rw [hdw] at h; simp at h
    | cons c rest =>
      rw [hdw] at h
      dsimp only at h
      by_cases hc : c = '"'
      · subst hc
        exact ⟨rest, rfl⟩
      · rw [if_neg hc] at h; simp at h

/-- A successful value parse starts at a character that opens a value. -/
theorem parseVal_inv (fuel : Nat) (s : List Char) (v : Json) (r : List Char)
    (h : parseVal fuel s = some (v, r)) :
    ∃ c k, List.dropWhile isWs s = c :: k ∧ ¬ c = '\x7d' ∧ ¬ c = ']' ∧
      ¬ c = ',' ∧ ¬ c = ':' := by
  cases fuel with
  | zero => simp [parseVal] at h
  | succ fuel =>
    simp only [parseVal] at h
    cases hdw : List.dropWhile isWs s with
    | nil => rw [hdw] at h; simp at h
    | cons c k =>
      rw [hdw] at h
      dsimp only at h
      refine ⟨c, k, rfl, ?_, ?_, ?_, ?_⟩ <;>
        (intro hc; subst hc; simp [numChar, Char.isDigit] at h)

/-- A successful element parse starts at a character that opens a value. -/
theorem parseElems_inv (fuel : Nat) (s : List Char)
    (x : List Json × List Char) (h : parseElems fuel s = some x) :
    ∃ c k, List.dropWhile isWs s = c :: k ∧ ¬ c = ']' := by
  cases fuel with
  | zero => simp [parseElems] at h
  | succ fuel =>
    rw [parseElems.eq_def] at h
    dsimp only at h
    cases he : parseVal fuel s with
    | none => rw [he] at h; simp at h
    | some vp =>
      obtain ⟨v, r1⟩ := vp
      obtain ⟨c, k, hdw, _, hc, _, _⟩ := parseVal_inv fuel s v r1 he
      exact ⟨c, k, hdw, hc⟩

/-- Extension lemma: a successful parse is preserved verbatim when the input
is extended past the parsed region, provided the leftover is nonempty or the
extension does not begin with a number character (which could extend a
number literal), and when the fuel is enlarged. -/
theorem parse_ext : ∀ fuel : Nat,
    (∀ s v r, parseVal fuel s = some (v, r) →
      ∀ g t, fuel ≤ g → tailOk r t → parseVal g (s ++ t) = some (v, r ++ t)) ∧
    (∀ s ms r, parseMembers fuel s = some (ms, r) →
      ∀ g t, fuel ≤ g → tailOk r t → parseMembers g (s ++ t) = some (ms, r ++ t)) ∧
    (∀ s vs r, parseElems fuel s = some (vs, r) →
      ∀ g t, fuel ≤ g → tailOk r t → parseElems g (s ++ t) = some (vs, r ++ t)) := by
  intro fuel
  induction fuel with
  | zero =>
    refine ⟨?_, ?_, ?_⟩
    · intro s v r h; simp [parseVal] at h
    · intro s ms r h; simp [parseMembers] at h
    · intro s vs r h; simp [parseElems] at h
  | succ fuel ih =>
    obtain ⟨ihV, ihM, ihE⟩ := ih
    refine ⟨?_, ?_, ?_⟩
    · intro s v r h g t hg ht
      obtain ⟨g, rfl⟩ : ∃ g2, g = g2 + 1 := ⟨g - 1, by omega⟩
      have hg2 : fuel ≤ g := by omega
      simp only [parseVal] at h ⊢
      cases hdw : List.dropWhile isWs s with
      | nil => rw [hdw] at h; simp at h
      | cons c rest =>
        rw [hdw] at h
        rw [dw_app isWs s t c rest hdw]
        dsimp only at h ⊢
        by_cases hc1 : c = '\x7b'
        · rw [if_pos hc1] at h ⊢
          cases hdw2 : List.dropWhile isWs rest with
          | nil => rw [hdw2] at h; simp at h
          | cons c2 r2 =>
            rw [hdw2] at h
            rw [dw_app isWs rest t c2 r2 hdw2]
            dsimp only at h ⊢
            by_cases hc2 : c2 = '\x7d'
            · rw [if_pos hc2] at h ⊢
              simp only [Option.some.injEq, Prod.mk.injEq] at h
              obtain ⟨rfl, rfl⟩ := h
              rfl
            · rw [if_neg hc2] at h ⊢
              cases hm : parseMembers fuel rest with
              | none => rw [hm] at h; simp at h
              | some p =>
                obtain ⟨ms, r3⟩ := p
                rw [hm] at h
                dsimp only at h
                simp only [Option.some.injEq, Prod.mk.injEq] at h
                obtain ⟨rfl, rfl⟩ := h
                rw [ihM rest ms r3 hm g t hg2 ht]
        · by_cases hc3 : c = '['
          · rw [if_neg hc1, if_pos hc3] at h ⊢
            cases hdw2 : List.dropWhile isWs rest with
            | nil => rw [hdw2] at h; simp at h
            | cons c2 r2 =>
              rw [hdw2] at h
              rw [dw_app isWs rest t c2 r2 hdw2]
              dsimp only at h ⊢
              by_cases hc2 : c2 = ']'
              · rw [if_pos hc2] at h ⊢
                simp only [Option.some.injEq, Prod.mk.injEq] at h
                obtain ⟨rfl, rfl⟩ := h
                rfl
              · rw [if_neg hc2] at h ⊢
                cases he : parseElems fuel rest with
                | none => rw [he] at h; simp at h
                | some p =>
                  obtain ⟨vs, r3⟩ := p
                  rw [he] at h
                  dsimp only at h
                  simp only [Option.some.injEq, Prod.mk.injEq] at h
                  obtain ⟨rfl, rfl⟩ := h
                  rw [ihE rest vs r3 he g t hg2 ht]
          · by_cases hc4 : c = '"'
            · rw [if_neg hc1, if_neg hc3, if_pos hc4] at h ⊢
              cases hsr : parseStrRaw rest with
              | none => rw [hsr] at h; simp at h
              | some p =>
                obtain ⟨cs, r2⟩ := p
                rw [hsr] at h
                rw [parseStrRaw_ext rest cs r2 t hsr]
                dsimp only at h ⊢
                simp only [Option.some.injEq, Prod.mk.injEq] at h
                obtain ⟨rfl, rfl⟩ := h
                rfl
            · by_cases hc5 : c = 't'
              · rw [if_neg hc1, if_neg hc3, if_neg hc4, if_pos hc5] at h ⊢
                by_cases htk : rest.take 3 = ['r', 'u', 'e']
                · rw [if_pos htk] at h
                  have hsp := take3_split rest 'r' 'u' 'e' htk
                  have htk2 : (rest ++ t).take 3 = ['r', 'u', 'e'] := by
                    conv_lhs => rw [hsp]
                    simp
                  have hdr : (rest ++ t).drop 3 = rest.drop 3 ++ t := by
                    conv_lhs => rw [hsp]
                    simp
                  rw [if_pos htk2, hdr]
                  simp only [Option.some.injEq, Prod.mk.injEq] at h
                  obtain ⟨rfl, rfl⟩ := h
                  rfl
                · rw [if_neg htk] at h; simp at h
              · by_cases hc6 : c = 'f'
                · rw [if_neg hc1, if_neg hc3, if_neg hc4, if_neg hc5,
                    if_pos hc6] at h ⊢
                  by_cases htk : rest.take 4 = ['a', 'l', 's', 'e']
                  · rw [if_pos htk] at h
                    have hsp := take4_split rest 'a' 'l' 's' 'e' htk
                    have htk2 : (rest ++ t).take 4 = ['a', 'l', 's', 'e'] := by
                      conv_lhs => rw [hsp]
                      simp
                    have hdr : (rest ++ t).drop 4 = rest.drop 4 ++ t := by
                      conv_lhs => rw [hsp]
                      simp
                    rw [if_pos htk2, hdr]
                    simp only [Option.some.injEq, Prod.mk.injEq] at h
                    obtain ⟨rfl, rfl⟩ := h
                    rfl
                  · rw [if_neg htk] at h; simp at h
                · by_cases hc7 : c = 'n'
                  · rw [if_neg hc1, if_neg hc3, if_neg hc4, if_neg hc5,
                      if_neg hc6, if_pos hc7] at h ⊢
                    by_cases htk : rest.take 3 = ['u', 'l', 'l']
                    · rw [if_pos htk] at h
                      have hsp := take3_split rest 'u' 'l' 'l' htk
                      have htk2 : (rest ++ t).take 3 = ['u', 'l', 'l'] := by
                        conv_lhs => rw [hsp]
                        simp
                      have hdr : (rest ++ t).drop 3 = rest.drop 3 ++ t := by
                        conv_lhs => rw [hsp]
                        simp
                      rw [if_pos htk2, hdr]
                      simp only [Option.some.injEq, Prod.mk.injEq] at h
                      obtain ⟨rfl, rfl⟩ := h
                      rfl
                    · rw [if_neg htk] at h; simp at h
                  · by_cases hc8 : numChar c = true
                    · rw [if_neg hc1, if_neg hc3, if_neg hc4, if_neg hc5,
                        if_neg hc6, if_neg hc7, if_pos hc8] at h ⊢
                      simp only [Option.some.injEq, Prod.mk.injEq] at h
                      obtain ⟨rfl, rfl⟩ := h
                      rcases Classical.em (List.dropWhile numChar rest = []) with hre | hre
                      · rcases ht with h1 | h2
                        · exact absurd hre h1
                        · obtain ⟨htw, htd⟩ := hd_not_take numChar t h2
                          rw [tw_app_of_all numChar rest t hre, htw,
                            dw_app_of_all numChar rest t hre, htd, hre]
                          simp [tw_of_all numChar rest hre]
                      · rw [tw_app_of_stop numChar rest t hre]
                        rw [List.dropWhile_append]
                        simp [hre]
                    · rw [if_neg hc1, if_neg hc3, if_neg hc4, if_neg hc5,
                        if_neg hc6, if_neg hc7, if_neg hc8] at h
                      simp at h
    · intro s ms r h g t hg ht
      obtain ⟨g, rfl⟩ : ∃ g2, g = g2 + 1 := ⟨g - 1, by omega⟩
      have hg2 : fuel ≤ g := by omega
      rw [parseMembers.eq_def] at h
      rw [parseMembers.eq_def]
      dsimp only at h ⊢
      cases hdw : List.dropWhile isWs s with
      | nil => rw [hdw] at h; simp at h
      | cons c rest =>
        rw [hdw] at h
        rw [dw_app isWs s t c rest hdw]
        dsimp only at h ⊢
        by_cases hc : c = '"'
        · rw [if_pos hc] at h ⊢
          cases hsr : parseStrRaw rest with
          | none => rw [hsr] at h; simp at h
          | some kp =>
            obtain ⟨key, r1⟩ := kp
            rw [hsr] at h
            rw [parseStrRaw_ext rest key r1 t hsr]
            dsimp only at h ⊢
            cases hdw1 : List.dropWhile isWs r1 with
            | nil => rw [hdw1] at h; simp at h
            | cons c1 r2 =>
              rw [hdw1] at h
              rw [dw_app isWs r1 t c1 r2 hdw1]
              dsimp only at h ⊢
              by_cases hc1 : c1 = ':'
              · rw [if_pos hc1] at h ⊢
                cases hv : parseVal fuel r2 with
                | none => rw [hv] at h; simp at h
                | some vp =>
                  obtain ⟨v, r3⟩ := vp
                  rw [hv] at h
                  dsimp only at h
                  cases hdw3 : List.dropWhile isWs r3 with
                  | nil => rw [hdw3] at h; simp at h
                  | cons c3 r4 =>
                    rw [hdw3] at h
                    have hr3ne : r3 ≠ [] := ne_nil_of_dropWhile _ _ _ _ hdw3
                    rw [ihV r2 v r3 hv g t hg2 (Or.inl hr3ne)]
                    dsimp only
                    rw [dw_app isWs r3 t c3 r4 hdw3]
                    dsimp only at h ⊢
                    by_cases hc3 : c3 = ','
                    · rw [if_pos hc3] at h ⊢
                      cases hm2 : parseMembers fuel r4 with
                      | none => rw [hm2] at h; simp at h
                      | some mp =>
                        obtain ⟨ms2, r5⟩ := mp
                        rw [hm2] at h
                        dsimp only at h
                        simp only [Option.some.injEq, Prod.mk.injEq] at h
                        obtain ⟨rfl, rfl⟩ := h
                        rw [ihM r4 ms2 r5 hm2 g t hg2 ht]
                    · by_cases hc4 : c3 = '\x7d'
                      · rw [if_neg hc3, if_pos hc4] at h ⊢
                        simp only [Option.some.injEq, Prod.mk.injEq] at h
                        obtain ⟨rfl, rfl⟩ := h
                        rfl
                      · rw [if_neg hc3, if_neg hc4] at h
                        simp at h
              · rw [if_neg hc1] at h
                simp at h
        · rw [if_neg hc] at h
          simp at h
    · intro s vs r h g t hg ht
      obtain ⟨g, rfl⟩ : ∃ g2, g = g2 + 1 := ⟨g - 1, by omega⟩
      have hg2 : fuel ≤ g := by omega
      rw [parseElems.eq_def] at h
      rw [parseElems.eq_def]
      dsimp only at h ⊢
      cases he : parseVal fuel s with
      | none => rw [he] at h; simp at h
      | some vp =>
        obtain ⟨v, r1⟩ := vp
        rw [he] at h
        dsimp only at h
        cases hdw1 : List.dropWhile isWs r1 with
        | nil => rw [hdw1] at h; simp at h
        | cons c1 r2 =>
          rw [hdw1] at h
          have hr1ne : r1 ≠ [] := ne_nil_of_dropWhile _ _ _ _ hdw1
          rw [ihV s v r1 he g t hg2 (Or.inl hr1ne)]
          dsimp only
          rw [dw_app isWs r1 t c1 r2 hdw1]
          dsimp only at h ⊢
          by_cases hc1 : c1 = ','
          · rw [if_pos hc1] at h ⊢
            cases hee : parseElems fuel r2 with
            | none => rw [hee] at h; simp at h
            | some ep =>
              obtain ⟨vs2, r3⟩ := ep
              rw [hee] at h
              dsimp only at h
              simp only [Option.some.injEq, Prod.mk.injEq] at h
              obtain ⟨rfl, rfl⟩ := h
              rw [ihE r2 vs2 r3 hee g t hg2 ht]
          · by_cases hc2 : c1 = ']'
            · rw [if_neg hc1, if_pos hc2] at h ⊢
              simp only [Option.some.injEq, Prod.mk.injEq] at h
              obtain ⟨rfl, rfl⟩ := h
              rfl
            · rw [if_neg hc1, if_neg hc2] at h
              simp at h

/-- Fuel monotonicity of the value reader. -/
theorem parseVal_mono (fuel g : Nat) (s : List Char) (v : Json) (r : List Char)
    (h : parseVal fuel s = some (v, r)) (hg : fuel ≤ g) :
    parseVal g s = some (v, r) := by
  have := (parse_ext fuel).1 s v r h g [] hg
    (Or.inr (fun c hc => by simp at hc))
  simpa using this
/-- Walk of a string value: a space, a quote, quote-free contents, and the closing quote parse to `Json.str` of the contents. -/
theorem walk_strVal (m : Nat) (X r : List Char)
    (hX : ∀ c ∈ X, ¬ c = '"' ∧ ¬ c = '\\') :
    parseVal (m + 1) (' ' :: '"' :: (X ++ ('"' :: r))) =
      some (Json.str X, r) := by
  rw [parseVal.eq_def]
  dsimp only
  rw [show List.dropWhile isWs (' ' :: '"' :: (X ++ ('"' :: r))) = '"' :: (X ++ ('"' :: r)) from rfl]
  dsimp only
  rw [if_neg (by decide : ¬ ('"' : Char) = '\x7b'), if_neg (by decide : ¬ ('"' : Char) = '['),
      if_pos (rfl : ('"' : Char) = '"')]
  rw [parseStrRaw_closed X r hX]

/-- Dropping whitespace consumes a leading newline. -/
theorem dw_nl (x : List Char) : List.dropWhile isWs ('\n' :: x) = List.dropWhile isWs x := rfl
/-- Dropping whitespace consumes a leading space. -/
theorem dw_sp (x : List Char) : List.dropWhile isWs (' ' :: x) = List.dropWhile isWs x := rfl
/-- Dropping whitespace stops at a double quote. -/
theorem dw_quot (x : List Char) : List.dropWhile isWs ('"' :: x) = '"' :: x := rfl
/-- Dropping whitespace stops at a closing brace. -/
theorem dw_rb (x : List Char) : List.dropWhile isWs ('\x7d' :: x) = '\x7d' :: x := rfl
/-- Dropping whitespace stops at a colon. -/
theorem dw_colon (x : List Char) : List.dropWhile isWs (':' :: x) = ':' :: x := rfl
/-- Dropping whitespace stops at a comma. -/
theorem dw_comma (x : List Char) : List.dropWhile isWs (',' :: x) = ',' :: x := rfl

/-- Reads the literal key `tableId` up to its closing quote. -/
theorem psr_tableId (x : List Char) :
    parseStrRaw ('t' :: 'a' :: 'b' :: 'l' :: 'e' :: 'I' :: 'd' :: '"' :: x) =
      some ("tableId".data, x) := by
  simpa using parseStrRaw_closed ['t', 'a', 'b', 'l', 'e', 'I', 'd'] x (by decide)

/-- Walk of the `tableId` member and the closing brace of the `destinationTable` object. -/
theorem walk_tableId (m : Nat) (T r : List Char)
    (hT : ∀ c ∈ T, ¬ c = '"' ∧ ¬ c = '\\') :
    parseMembers (m + 2)
      ('\n' :: ' ' :: ' ' :: ' ' :: ' ' :: ' ' :: ' ' :: ' ' :: ' ' ::
       '"' :: 't' :: 'a' :: 'b' :: 'l' :: 'e' :: 'I' :: 'd' :: '"' :: ':' ::
       ' ' :: '"' :: (T ++ ('"' :: '\n' :: ' ' :: ' ' :: ' ' :: ' ' :: ' ' :: ' ' :: '\x7d' :: r))) =
      some ([("tableId".data, Json.str T)], r) := by
  rw [parseMembers.eq_def]
  dsimp only
  simp only [dw_nl, dw_sp, dw_quot, if_true]
  rw [psr_tableId]
  dsimp only
  simp only [dw_colon, if_true]
  rw [walk_strVal m T _ hT]
  dsimp only
  simp only [dw_nl, dw_sp, dw_rb]
  rw [if_neg (by decide : ¬ ('\x7d' : Char) = ',')]
  simp only [if_true]

/-- Dropping whitespace stops at an opening brace. -/
theorem dw_lb (x : List Char) : List.dropWhile isWs ('\x7b' :: x) = '\x7b' :: x := rfl


/-- Reads the literal key `datasetId` up to its closing quote. -/
theorem psr_datasetId (x : List Char) :
    parseStrRaw ('d' :: 'a' :: 't' :: 'a' :: 's' :: 'e' :: 't' :: 'I' :: 'd' :: '"' :: x) = some ("datasetId".data, x) := by
  simpa using parseStrRaw_closed ['d', 'a', 't', 'a', 's', 'e', 't', 'I', 'd'] x (by decide)


/-- Reads the literal key `projectId` up to its closing quote. -/
theorem psr_projectId (x : List Char) :
    parseStrRaw ('p' :: 'r' :: 'o' :: 'j' :: 'e' :: 'c' :: 't' :: 'I' :: 'd' :: '"' :: x) = some ("projectId".data, x) := by
  simpa using parseStrRaw_closed ['p', 'r', 'o', 'j', 'e', 'c', 't', 'I', 'd'] x (by decide)


/-- Reads the literal key `destinationTable` up to its closing quote. -/
theorem psr_destinationTable (x : List Char) :
    parseStrRaw ('d' :: 'e' :: 's' :: 't' :: 'i' :: 'n' :: 'a' :: 't' :: 'i' :: 'o' :: 'n' :: 'T' :: 'a' :: 'b' :: 'l' :: 'e' :: '"' :: x) = some ("destinationTable".data, x) := by
  simpa using parseStrRaw_closed ['d', 'e', 's', 't', 'i', 'n', 'a', 't', 'i', 'o', 'n', 'T', 'a', 'b', 'l', 'e'] x (by decide)


/-- Reads the literal key `schema` up to its closing quote. -/
theorem psr_schema (x : List Char) :
    parseStrRaw ('s' :: 'c' :: 'h' :: 'e' :: 'm' :: 'a' :: '"' :: x) = some ("schema".data, x) := by
  simpa using parseStrRaw_closed ['s', 'c', 'h', 'e', 'm', 'a'] x (by decide)


/-- Reads the literal key `fields` up to its closing quote. -/
theorem psr_fields (x : List Char) :
    parseStrRaw ('f' :: 'i' :: 'e' :: 'l' :: 'd' :: 's' :: '"' :: x) = some ("fields".data, x) := by
  simpa using parseStrRaw_closed ['f', 'i', 'e', 'l', 'd', 's'] x (by decide)


/-- Reads the literal key `load` up to its closing quote. -/
theorem psr_load (x : List Char) :
    parseStrRaw ('l' :: 'o' :: 'a' :: 'd' :: '"' :: x) = some ("load".data, x) := by
  simpa using parseStrRaw_closed ['l', 'o', 'a', 'd'] x (by decide)


/-- Reads the literal key `configuration` up to its closing quote. -/
theorem psr_configuration (x : List Char) :
    parseStrRaw ('c' :: 'o' :: 'n' :: 'f' :: 'i' :: 'g' :: 'u' :: 'r' :: 'a' :: 't' :: 'i' :: 'o' :: 'n' :: '"' :: x) = some ("configuration".data, x) := by
  simpa using parseStrRaw_closed ['c', 'o', 'n', 'f', 'i', 'g', 'u', 'r', 'a', 't', 'i', 'o', 'n'] x (by decide)


/-- A leading whitespace character does not change the result of `parseVal`. -/
theorem parseVal_ws (f : Nat) (c : Char) (y : List Char) (hc : isWs c = true) :
    parseVal f (c :: y) = parseVal f y := by
  cases f with
  | zero =>
    rw [parseVal.eq_def]
    conv_rhs => rw [parseVal.eq_def]
  | succ f =>
    rw [parseVal.eq_def]
    conv_rhs => rw [parseVal.eq_def]
    dsimp only
    rw [show List.dropWhile isWs (c :: y) = List.dropWhile isWs y from by
      simp [List.dropWhile_cons, hc]]


/-- Walk of the `datasetId` member followed by the `tableId` member. -/
theorem walk_datasetId (m : Nat) (Ds T r : List Char) (hDs : ∀ c ∈ Ds, ¬ c = '"' ∧ ¬ c = '\\') (hT : ∀ c ∈ T, ¬ c = '"' ∧ ¬ c = '\\') :
    parseMembers (m + 3)
      ('\n' :: ' ' :: ' ' :: ' ' :: ' ' :: ' ' :: ' ' :: ' ' :: ' ' :: '"' :: 'd' :: 'a' :: 't' :: 'a' :: 's' :: 'e' :: 't' :: 'I' :: 'd' :: '"' :: ':' :: ' ' :: '"' :: (Ds ++ ('"' :: ',' :: '\n' :: ' ' :: ' ' :: ' ' :: ' ' :: ' ' :: ' ' :: ' ' :: ' ' :: '"' :: 't' :: 'a' :: 'b' :: 'l' :: 'e' :: 'I' :: 'd' :: '"' :: ':' :: ' ' :: '"' :: (T ++ ('"' :: '\n' :: ' ' :: ' ' :: ' ' :: ' ' :: ' ' :: ' ' :: '\x7d' :: r))))) =
      some ([("datasetId".data, Json.str Ds), ("tableId".data, Json.str T)], r) := by
  rw [parseMembers.eq_def]
  dsimp only
  simp only [dw_nl, dw_sp, dw_quot, if_true]
  rw [psr_datasetId]
  dsimp only
  simp only [dw_colon, if_true]
  have hv : parseVal (m + 2) (' ' :: '"' :: (Ds ++ ('"' :: ',' :: '\n' :: ' ' :: ' ' :: ' ' :: ' ' :: ' ' :: ' ' :: ' ' :: ' ' :: '"' :: 't' :: 'a' :: 'b' :: 'l' :: 'e' :: 'I' :: 'd' :: '"' :: ':' :: ' ' :: '"' :: (T ++ ('"' :: '\n' :: ' ' :: ' ' :: ' ' :: ' ' :: ' ' :: ' ' :: '\x7d' :: r))))) =
      some (Json.str Ds, ',' :: '\n' :: ' ' :: ' ' :: ' ' :: ' ' :: ' ' :: ' ' :: ' ' :: ' ' :: '"' :: 't' :: 'a' :: 'b' :: 'l' :: 'e' :: 'I' :: 'd' :: '"' :: ':' :: ' ' :: '"' :: (T ++ ('"' :: '\n' :: ' ' :: ' ' :: ' ' :: ' ' :: ' ' :: ' ' :: '\x7d' :: r))) :=
    walk_strVal (m + 1) Ds (',' :: '\n' :: ' ' :: ' ' :: ' ' :: ' ' :: ' ' :: ' ' :: ' ' :: ' ' :: '"' :: 't' :: 'a' :: 'b' :: 'l' :: 'e' :: 'I' :: 'd' :: '"' :: ':' :: ' ' :: '"' :: (T ++ ('"' :: '\n' :: ' ' :: ' ' :: ' ' :: ' ' :: ' ' :: ' ' :: '\x7d' :: r))) hDs
  rw [hv]
  dsimp only
  simp only [dw_comma, if_true]
  rw [walk_tableId m T r hT]


/-- Walk of the three destination identifier members. -/
theorem walk_projectId (m : Nat) (P Ds T r : List Char) (hP : ∀ c ∈ P, ¬ c = '"' ∧ ¬ c = '\\') (hDs : ∀ c ∈ Ds, ¬ c = '"' ∧ ¬ c = '\\') (hT : ∀ c ∈ T, ¬ c = '"' ∧ ¬ c = '\\') :
    parseMembers (m + 4)
      ('\n' :: ' ' :: ' ' :: ' ' :: ' ' :: ' ' :: ' ' :: ' ' :: ' ' :: '"' :: 'p' :: 'r' :: 'o' :: 'j' :: 'e' :: 'c' :: 't' :: 'I' :: 'd' :: '"' :: ':' :: ' ' :: '"' :: (P ++ ('"' :: ',' :: '\n' :: ' ' :: ' ' :: ' ' :: ' ' :: ' ' :: ' ' :: ' ' :: ' ' :: '"' :: 'd' :: 'a' :: 't' :: 'a' :: 's' :: 'e' :: 't' :: 'I' :: 'd' :: '"' :: ':' :: ' ' :: '"' :: (Ds ++ ('"' :: ',' :: '\n' :: ' ' :: ' ' :: ' ' :: ' ' :: ' ' :: ' ' :: ' ' :: ' ' :: '"' :: 't' :: 'a' :: 'b' :: 'l' :: 'e' :: 'I' :: 'd' :: '"' :: ':' :: ' ' :: '"' :: (T ++ ('"' :: '\n' :: ' ' :: ' ' :: ' ' :: ' ' :: ' ' :: ' ' :: '\x7d' :: r))))))) =
      some ([("projectId".data, Json.str P), ("datasetId".data, Json.str Ds),
             ("tableId".data, Json.str T)], r) := by
  rw [parseMembers.eq_def]
  dsimp only
  simp only [dw_nl, dw_sp, dw_quot, if_true]
  rw [psr_projectId]
  dsimp only
  simp only [dw_colon, if_true]
  have hv : parseVal (m + 3) (' ' :: '"' :: (P ++ ('"' :: ',' :: '\n' :: ' ' :: ' ' :: ' ' :: ' ' :: ' ' :: ' ' :: ' ' :: ' ' :: '"' :: 'd' :: 'a' :: 't' :: 'a' :: 's' :: 'e' :: 't' :: 'I' :: 'd' :: '"' :: ':' :: ' ' :: '"' :: (Ds ++ ('"' :: ',' :: '\n' :: ' ' :: ' ' :: ' ' :: ' ' :: ' ' :: ' ' :: ' ' :: ' ' :: '"' :: 't' :: 'a' :: 'b' :: 'l' :: 'e' :: 'I' :: 'd' :: '"' :: ':' :: ' ' :: '"' :: (T ++ ('"' :: '\n' :: ' ' :: ' ' :: ' ' :: ' ' :: ' ' :: ' ' :: '\x7d' :: r))))))) =
      some (Json.str P, ',' :: '\n' :: ' ' :: ' ' :: ' ' :: ' ' :: ' ' :: ' ' :: ' ' :: ' ' :: '"' :: 'd' :: 'a' :: 't' :: 'a' :: 's' :: 'e' :: 't' :: 'I' :: 'd' :: '"' :: ':' :: ' ' :: '"' :: (Ds ++ ('"' :: ',' :: '\n' :: ' ' :: ' ' :: ' ' :: ' ' :: ' ' :: ' ' :: ' ' :: ' ' :: '"' :: 't' :: 'a' :: 'b' :: 'l' :: 'e' :: 'I' :: 'd' :: '"' :: ':' :: ' ' :: '"' :: (T ++ ('"' :: '\n' :: ' ' :: ' ' :: ' ' :: ' ' :: ' ' :: ' ' :: '\x7d' :: r))))) :=
    walk_strVal (m + 2) P (',' :: '\n' :: ' ' :: ' ' :: ' ' :: ' ' :: ' ' :: ' ' :: ' ' :: ' ' :: '"' :: 'd' :: 'a' :: 't' :: 'a' :: 's' :: 'e' :: 't' :: 'I' :: 'd' :: '"' :: ':' :: ' ' :: '"' :: (Ds ++ ('"' :: ',' :: '\n' :: ' ' :: ' ' :: ' ' :: ' ' :: ' ' :: ' ' :: ' ' :: ' ' :: '"' :: 't' :: 'a' :: 'b' :: 'l' :: 'e' :: 'I' :: 'd' :: '"' :: ':' :: ' ' :: '"' :: (T ++ ('"' :: '\n' :: ' ' :: ' ' :: ' ' :: ' ' :: ' ' :: ' ' :: '\x7d' :: r))))) hP
  rw [hv]
  dsimp only
  simp only [dw_comma, if_true]
  rw [walk_datasetId m Ds T r hDs hT]


/-- Walk of the `destinationTable` object value. -/
theorem walk_dtVal (m : Nat) (P Ds T r : List Char) (hP : ∀ c ∈ P, ¬ c = '"' ∧ ¬ c = '\\') (hDs : ∀ c ∈ Ds, ¬ c = '"' ∧ ¬ c = '\\') (hT : ∀ c ∈ T, ¬ c = '"' ∧ ¬ c = '\\') :
    parseVal (m + 5) (' ' :: '\x7b' :: '\n' :: ' ' :: ' ' :: ' ' :: ' ' :: ' ' :: ' ' :: ' ' :: ' ' :: '"' :: 'p' :: 'r' :: 'o' :: 'j' :: 'e' :: 'c' :: 't' :: 'I' :: 'd' :: '"' :: ':' :: ' ' :: '"' :: (P ++ ('"' :: ',' :: '\n' :: ' ' :: ' ' :: ' ' :: ' ' :: ' ' :: ' ' :: ' ' :: ' ' :: '"' :: 'd' :: 'a' :: 't' :: 'a' :: 's' :: 'e' :: 't' :: 'I' :: 'd' :: '"' :: ':' :: ' ' :: '"' :: (Ds ++ ('"' :: ',' :: '\n' :: ' ' :: ' ' :: ' ' :: ' ' :: ' ' :: ' ' :: ' ' :: ' ' :: '"' :: 't' :: 'a' :: 'b' :: 'l' :: 'e' :: 'I' :: 'd' :: '"' :: ':' :: ' ' :: '"' :: (T ++ ('"' :: '\n' :: ' ' :: ' ' :: ' ' :: ' ' :: ' ' :: ' ' :: '\x7d' :: r))))))) = some ((Json.obj [("projectId".data, Json.str P), ("datasetId".data, Json.str Ds), ("tableId".data, Json.str T)]), r) := by
  rw [parseVal.eq_def]
  dsimp only
  simp only [dw_nl, dw_sp, dw_lb, dw_quot, if_true]
  rw [if_neg (by decide : ¬ ('"' : Char) = '\x7d')]
  rw [walk_projectId m P Ds T r hP hDs hT]


/-- Walk of the `destinationTable` member and the closing brace of the `load` object. -/
theorem walk_dtMem (m : Nat) (P Ds T r : List Char) (hP : ∀ c ∈ P, ¬ c = '"' ∧ ¬ c = '\\') (hDs : ∀ c ∈ Ds, ¬ c = '"' ∧ ¬ c = '\\') (hT : ∀ c ∈ T, ¬ c = '"' ∧ ¬ c = '\\') :
    parseMembers (m + 6) ('\n' :: ' ' :: ' ' :: ' ' :: ' ' :: ' ' :: ' ' :: '"' :: 'd' :: 'e' :: 's' :: 't' :: 'i' :: 'n' :: 'a' :: 't' :: 'i' :: 'o' :: 'n' :: 'T' :: 'a' :: 'b' :: 'l' :: 'e' :: '"' :: ':' :: ' ' :: '\x7b' :: '\n' :: ' ' :: ' ' :: ' ' :: ' ' :: ' ' :: ' ' :: ' ' :: ' ' :: '"' :: 'p' :: 'r' :: 'o' :: 'j' :: 'e' :: 'c' :: 't' :: 'I' :: 'd' :: '"' :: ':' :: ' ' :: '"' :: (P ++ ('"' :: ',' :: '\n' :: ' ' :: ' ' :: ' ' :: ' ' :: ' ' :: ' ' :: ' ' :: ' ' :: '"' :: 'd' :: 'a' :: 't' :: 'a' :: 's' :: 'e' :: 't' :: 'I' :: 'd' :: '"' :: ':' :: ' ' :: '"' :: (Ds ++ ('"' :: ',' :: '\n' :: ' ' :: ' ' :: ' ' :: ' ' :: ' ' :: ' ' :: ' ' :: ' ' :: '"' :: 't' :: 'a' :: 'b' :: 'l' :: 'e' :: 'I' :: 'd' :: '"' :: ':' :: ' ' :: '"' :: (T ++ ('"' :: '\n' :: ' ' :: ' ' :: ' ' :: ' ' :: ' ' :: ' ' :: '\x7d' :: '\n' :: ' ' :: ' ' :: ' ' :: ' ' :: '\x7d' :: r))))))) =
      some ([("destinationTable".data, (Json.obj [("projectId".data, Json.str P), ("datasetId".data, Json.str Ds), ("tableId".data, Json.str T)]))], r) := by
  rw [parseMembers.eq_def]
  dsimp only
  simp only [dw_nl, dw_sp, dw_quot, if_true]
  rw [psr_destinationTable]
  dsimp only
  simp only [dw_colon, if_true]
  rw [walk_dtVal m P Ds T ('\n' :: ' ' :: ' ' :: ' ' :: ' ' :: '\x7d' :: r) hP hDs hT]
  dsimp only
  simp only [dw_nl, dw_sp, dw_rb]
  rw [if_neg (by decide : ¬ ('\x7d' : Char) = ',')]
  simp only [if_true]


/-- Walk of the `fields` member, whose value is the embedded schema text, and the closing brace of the `schema` object. -/
theorem walk_fieldsMem (g : Nat) (Sd : List Char) (v : Json) (rS r : List Char) (hS : parseVal g Sd = some (v, rS)) (hws : List.dropWhile isWs rS = []) :
    parseMembers (g + 1) ('\n' :: ' ' :: ' ' :: ' ' :: ' ' :: ' ' :: ' ' :: ' ' :: ' ' :: ' ' :: '"' :: 'f' :: 'i' :: 'e' :: 'l' :: 'd' :: 's' :: '"' :: ':' :: ' ' :: (Sd ++ ('\n' :: ' ' :: ' ' :: ' ' :: ' ' :: ' ' :: ' ' :: '\x7d' :: r))) = some ([("fields".data, v)], r) := by
  rw [parseMembers.eq_def]
  dsimp only
  simp only [dw_nl, dw_sp, dw_quot, if_true]
  rw [psr_fields]
  dsimp only
  simp only [dw_colon, if_true]
  rw [parseVal_ws g ' ' _ (by decide)]
  have hext : parseVal g (Sd ++ ('\n' :: ' ' :: ' ' :: ' ' :: ' ' :: ' ' :: ' ' :: '\x7d' :: r)) = some (v, rS ++ ('\n' :: ' ' :: ' ' :: ' ' :: ' ' :: ' ' :: ' ' :: '\x7d' :: r)) :=
    (parse_ext g).1 Sd v rS hS g _ le_rfl
      (Or.inr (fun c hc => by
        simp only [List.head?_cons, Option.some.injEq] at hc
        subst hc
        decide))
  rw [hext]
  dsimp only
  rw [dw_app_of_all isWs rS _ hws]
  simp only [dw_nl, dw_sp, dw_rb]
  rw [if_neg (by decide : ¬ ('\x7d' : Char) = ',')]
  simp only [if_true]


/-- Walk of the `schema` object value. -/
theorem walk_schemaVal (g : Nat) (Sd : List Char) (v : Json) (rS r : List Char) (hS : parseVal g Sd = some (v, rS)) (hws : List.dropWhile isWs rS = []) :
    parseVal (g + 2) (' ' :: '\x7b' :: '\n' :: ' ' :: ' ' :: ' ' :: ' ' :: ' ' :: ' ' :: ' ' :: ' ' :: ' ' :: '"' :: 'f' :: 'i' :: 'e' :: 'l' :: 'd' :: 's' :: '"' :: ':' :: ' ' :: (Sd ++ ('\n' :: ' ' :: ' ' :: ' ' :: ' ' :: ' ' :: ' ' :: '\x7d' :: r))) = some ((Json.obj [("fields".data, v)]), r) := by
  rw [parseVal.eq_def]
  dsimp only
  simp only [dw_nl, dw_sp, dw_lb, dw_quot, if_true]
  rw [if_neg (by decide : ¬ ('"' : Char) = '\x7d')]
  rw [walk_fieldsMem g Sd v rS r hS hws]


/-- Walk of the `schema` member followed by the `destinationTable` member. -/
theorem walk_schemaMem (g : Nat) (Sd : List Char) (v : Json) (rS : List Char)
    (P Ds T r : List Char) (hS : parseVal g Sd = some (v, rS)) (hws : List.dropWhile isWs rS = []) (hP : ∀ c ∈ P, ¬ c = '"' ∧ ¬ c = '\\') (hDs : ∀ c ∈ Ds, ¬ c = '"' ∧ ¬ c = '\\') (hT : ∀ c ∈ T, ¬ c = '"' ∧ ¬ c = '\\') :
    parseMembers (g + 7) ('\n' :: ' ' :: ' ' :: ' ' :: ' ' :: ' ' :: ' ' :: ' ' :: '"' :: 's' :: 'c' :: 'h' :: 'e' :: 'm' :: 'a' :: '"' :: ':' :: ' ' :: '\x7b' :: '\n' :: ' ' :: ' ' :: ' ' :: ' ' :: ' ' :: ' ' :: ' ' :: ' ' :: ' ' :: '"' :: 'f' :: 'i' :: 'e' :: 'l' :: 'd' :: 's' :: '"' :: ':' :: ' ' :: (Sd ++ ('\n' :: ' ' :: ' ' :: ' ' :: ' ' :: ' ' :: ' ' :: '\x7d' :: ',' :: '\n' :: ' ' :: ' ' :: ' ' :: ' ' :: ' ' :: ' ' :: '"' :: 'd' :: 'e' :: 's' :: 't' :: 'i' :: 'n' :: 'a' :: 't' :: 'i' :: 'o' :: 'n' :: 'T' :: 'a' :: 'b' :: 'l' :: 'e' :: '"' :: ':' :: ' ' :: '\x7b' :: '\n' :: ' ' :: ' ' :: ' ' :: ' ' :: ' ' :: ' ' :: ' ' :: ' ' :: '"' :: 'p' :: 'r' :: 'o' :: 'j' :: 'e' :: 'c' :: 't' :: 'I' :: 'd' :: '"' :: ':' :: ' ' :: '"' :: (P ++ ('"' :: ',' :: '\n' :: ' ' :: ' ' :: ' ' :: ' ' :: ' ' :: ' ' :: ' ' :: ' ' :: '"' :: 'd' :: 'a' :: 't' :: 'a' :: 's' :: 'e' :: 't' :: 'I' :: 'd' :: '"' :: ':' :: ' ' :: '"' :: (Ds ++ ('"' :: ',' :: '\n' :: ' ' :: ' ' :: ' ' :: ' ' :: ' ' :: ' ' :: ' ' :: ' ' :: '"' :: 't' :: 'a' :: 'b' :: 'l' :: 'e' :: 'I' :: 'd' :: '"' :: ':' :: ' ' :: '"' :: (T ++ ('"' :: '\n' :: ' ' :: ' ' :: ' ' :: ' ' :: ' ' :: ' ' :: '\x7d' :: '\n' :: ' ' :: ' ' :: ' ' :: ' ' :: '\x7d' :: r))))))))) =
      some ([("schema".data, (Json.obj [("fields".data, v)])), ("destinationTable".data, (Json.obj [("projectId".data, Json.str P), ("datasetId".data, Json.str Ds), ("tableId".data, Json.str T)]))], r) := by
  rw [parseMembers.eq_def]
  dsimp only
  simp only [dw_nl, dw_sp, dw_quot, if_true]
  rw [psr_schema]
  dsimp only
  simp only [dw_colon, if_true]
  rw [parseVal_mono (g + 2) (g + 6) _ _ _
    (walk_schemaVal g Sd v rS (',' :: '\n' :: ' ' :: ' ' :: ' ' :: ' ' :: ' ' :: ' ' :: '"' :: 'd' :: 'e' :: 's' :: 't' :: 'i' :: 'n' :: 'a' :: 't' :: 'i' :: 'o' :: 'n' :: 'T' :: 'a' :: 'b' :: 'l' :: 'e' :: '"' :: ':' :: ' ' :: '\x7b' :: '\n' :: ' ' :: ' ' :: ' ' :: ' ' :: ' ' :: ' ' :: ' ' :: ' ' :: '"' :: 'p' :: 'r' :: 'o' :: 'j' :: 'e' :: 'c' :: 't' :: 'I' :: 'd' :: '"' :: ':' :: ' ' :: '"' :: (P ++ ('"' :: ',' :: '\n' :: ' ' :: ' ' :: ' ' :: ' ' :: ' ' :: ' ' :: ' ' :: ' ' :: '"' :: 'd' :: 'a' :: 't' :: 'a' :: 's' :: 'e' :: 't' :: 'I' :: 'd' :: '"' :: ':' :: ' ' :: '"' :: (Ds ++ ('"' :: ',' :: '\n' :: ' ' :: ' ' :: ' ' :: ' ' :: ' ' :: ' ' :: ' ' :: ' ' :: '"' :: 't' :: 'a' :: 'b' :: 'l' :: 'e' :: 'I' :: 'd' :: '"' :: ':' :: ' ' :: '"' :: (T ++ ('"' :: '\n' :: ' ' :: ' ' :: ' ' :: ' ' :: ' ' :: ' ' :: '\x7d' :: '\n' :: ' ' :: ' ' :: ' ' :: ' ' :: '\x7d' :: r))))))) hS hws) (by omega)]
  dsimp only
  simp only [dw_comma, if_true]
  rw [walk_dtMem g P Ds T r hP hDs hT]


/-- Walk of the `load` object value. -/
theorem walk_loadVal (g : Nat) (Sd : List Char) (v : Json) (rS : List Char)
    (P Ds T r : List Char) (hS : parseVal g Sd = some (v, rS)) (hws : List.dropWhile isWs rS = []) (hP : ∀ c ∈ P, ¬ c = '"' ∧ ¬ c = '\\') (hDs : ∀ c ∈ Ds, ¬ c = '"' ∧ ¬ c = '\\') (hT : ∀ c ∈ T, ¬ c = '"' ∧ ¬ c = '\\') :
    parseVal (g + 8) (' ' :: '\x7b' :: '\n' :: ' ' :: ' ' :: ' ' :: ' ' :: ' ' :: ' ' :: ' ' :: '"' :: 's' :: 'c' :: 'h' :: 'e' :: 'm' :: 'a' :: '"' :: ':' :: ' ' :: '\x7b' :: '\n' :: ' ' :: ' ' :: ' ' :: ' ' :: ' ' :: ' ' :: ' ' :: ' ' :: ' ' :: '"' :: 'f' :: 'i' :: 'e' :: 'l' :: 'd' :: 's' :: '"' :: ':' :: ' ' :: (Sd ++ ('\n' :: ' ' :: ' ' :: ' ' :: ' ' :: ' ' :: ' ' :: '\x7d' :: ',' :: '\n' :: ' ' :: ' ' :: ' ' :: ' ' :: ' ' :: ' ' :: '"' :: 'd' :: 'e' :: 's' :: 't' :: 'i' :: 'n' :: 'a' :: 't' :: 'i' :: 'o' :: 'n' :: 'T' :: 'a' :: 'b' :: 'l' :: 'e' :: '"' :: ':' :: ' ' :: '\x7b' :: '\n' :: ' ' :: ' ' :: ' ' :: ' ' :: ' ' :: ' ' :: ' ' :: ' ' :: '"' :: 'p' :: 'r' :: 'o' :: 'j' :: 'e' :: 'c' :: 't' :: 'I' :: 'd' :: '"' :: ':' :: ' ' :: '"' :: (P ++ ('"' :: ',' :: '\n' :: ' ' :: ' ' :: ' ' :: ' ' :: ' ' :: ' ' :: ' ' :: ' ' :: '"' :: 'd' :: 'a' :: 't' :: 'a' :: 's' :: 'e' :: 't' :: 'I' :: 'd' :: '"' :: ':' :: ' ' :: '"' :: (Ds ++ ('"' :: ',' :: '\n' :: ' ' :: ' ' :: ' ' :: ' ' :: ' ' :: ' ' :: ' ' :: ' ' :: '"' :: 't' :: 'a' :: 'b' :: 'l' :: 'e' :: 'I' :: 'd' :: '"' :: ':' :: ' ' :: '"' :: (T ++ ('"' :: '\n' :: ' ' :: ' ' :: ' ' :: ' ' :: ' ' :: ' ' :: '\x7d' :: '\n' :: ' ' :: ' ' :: ' ' :: ' ' :: '\x7d' :: r))))))))) = some ((Json.obj [("schema".data, (Json.obj [("fields".data, v)])), ("destinationTable".data, (Json.obj [("projectId".data, Json.str P), ("datasetId".data, Json.str Ds), ("tableId".data, Json.str T)]))]), r) := by
  rw [parseVal.eq_def]
  dsimp only
  simp only [dw_nl, dw_sp, dw_lb, dw_quot, if_true]
  rw [if_neg (by decide : ¬ ('"' : Char) = '\x7d')]
  rw [walk_schemaMem g Sd v rS P Ds T r hS hws hP hDs hT]


/-- Walk of the `load` member and the closing brace of the `configuration` object. -/
theorem walk_loadMem (g : Nat) (Sd : List Char) (v : Json) (rS : List Char)
    (P Ds T r : List Char) (hS : parseVal g Sd = some (v, rS)) (hws : List.dropWhile isWs rS = []) (hP : ∀ c ∈ P, ¬ c = '"' ∧ ¬ c = '\\') (hDs : ∀ c ∈ Ds, ¬ c = '"' ∧ ¬ c = '\\') (hT : ∀ c ∈ T, ¬ c = '"' ∧ ¬ c = '\\') :
    parseMembers (g + 9) ('\n' :: ' ' :: ' ' :: ' ' :: ' ' :: ' ' :: '"' :: 'l' :: 'o' :: 'a' :: 'd' :: '"' :: ':' :: ' ' :: '\x7b' :: '\n' :: ' ' :: ' ' :: ' ' :: ' ' :: ' ' :: ' ' :: ' ' :: '"' :: 's' :: 'c' :: 'h' :: 'e' :: 'm' :: 'a' :: '"' :: ':' :: ' ' :: '\x7b' :: '\n' :: ' ' :: ' ' :: ' ' :: ' ' :: ' ' :: ' ' :: ' ' :: ' ' :: ' ' :: '"' :: 'f' :: 'i' :: 'e' :: 'l' :: 'd' :: 's' :: '"' :: ':' :: ' ' :: (Sd ++ ('\n' :: ' ' :: ' ' :: ' ' :: ' ' :: ' ' :: ' ' :: '\x7d' :: ',' :: '\n' :: ' ' :: ' ' :: ' ' :: ' ' :: ' ' :: ' ' :: '"' :: 'd' :: 'e' :: 's' :: 't' :: 'i' :: 'n' :: 'a' :: 't' :: 'i' :: 'o' :: 'n' :: 'T' :: 'a' :: 'b' :: 'l' :: 'e' :: '"' :: ':' :: ' ' :: '\x7b' :: '\n' :: ' ' :: ' ' :: ' ' :: ' ' :: ' ' :: ' ' :: ' ' :: ' ' :: '"' :: 'p' :: 'r' :: 'o' :: 'j' :: 'e' :: 'c' :: 't' :: 'I' :: 'd' :: '"' :: ':' :: ' ' :: '"' :: (P ++ ('"' :: ',' :: '\n' :: ' ' :: ' ' :: ' ' :: ' ' :: ' ' :: ' ' :: ' ' :: ' ' :: '"' :: 'd' :: 'a' :: 't' :: 'a' :: 's' :: 'e' :: 't' :: 'I' :: 'd' :: '"' :: ':' :: ' ' :: '"' :: (Ds ++ ('"' :: ',' :: '\n' :: ' ' :: ' ' :: ' ' :: ' ' :: ' ' :: ' ' :: ' ' :: ' ' :: '"' :: 't' :: 'a' :: 'b' :: 'l' :: 'e' :: 'I' :: 'd' :: '"' :: ':' :: ' ' :: '"' :: (T ++ ('"' :: '\n' :: ' ' :: ' ' :: ' ' :: ' ' :: ' ' :: ' ' :: '\x7d' :: '\n' :: ' ' :: ' ' :: ' ' :: ' ' :: '\x7d' :: '\n' :: ' ' :: ' ' :: '\x7d' :: r))))))))) = some ([("load".data, (Json.obj [("schema".data, (Json.obj [("fields".data, v)])), ("destinationTable".data, (Json.obj [("projectId".data, Json.str P), ("datasetId".data, Json.str Ds), ("tableId".data, Json.str T)]))]))], r) := by
  rw [parseMembers.eq_def]
  dsimp only
  simp only [dw_nl, dw_sp, dw_quot, if_true]
  rw [psr_load]
  dsimp only
  simp only [dw_colon, if_true]
  rw [walk_loadVal g Sd v rS P Ds T ('\n' :: ' ' :: ' ' :: '\x7d' :: r) hS hws hP hDs hT]
  dsimp only
  simp only [dw_nl, dw_sp, dw_rb]
  rw [if_neg (by decide : ¬ ('\x7d' : Char) = ',')]
  simp only [if_true]


/-- Walk of the `configuration` object value. -/
theorem walk_configVal (g : Nat) (Sd : List Char) (v : Json) (rS : List Char)
    (P Ds T r : List Char) (hS : parseVal g Sd = some (v, rS)) (hws : List.dropWhile isWs rS = []) (hP : ∀ c ∈ P, ¬ c = '"' ∧ ¬ c = '\\') (hDs : ∀ c ∈ Ds, ¬ c = '"' ∧ ¬ c = '\\') (hT : ∀ c ∈ T, ¬ c = '"' ∧ ¬ c = '\\') :
    parseVal (g + 10) (' ' :: '\x7b' :: '\n' :: ' ' :: ' ' :: ' ' :: ' ' :: ' ' :: '"' :: 'l' :: 'o' :: 'a' :: 'd' :: '"' :: ':' :: ' ' :: '\x7b' :: '\n' :: ' ' :: ' ' :: ' ' :: ' ' :: ' ' :: ' ' :: ' ' :: '"' :: 's' :: 'c' :: 'h' :: 'e' :: 'm' :: 'a' :: '"' :: ':' :: ' ' :: '\x7b' :: '\n' :: ' ' :: ' ' :: ' ' :: ' ' :: ' ' :: ' ' :: ' ' :: ' ' :: ' ' :: '"' :: 'f' :: 'i' :: 'e' :: 'l' :: 'd' :: 's' :: '"' :: ':' :: ' ' :: (Sd ++ ('\n' :: ' ' :: ' ' :: ' ' :: ' ' :: ' ' :: ' ' :: '\x7d' :: ',' :: '\n' :: ' ' :: ' ' :: ' ' :: ' ' :: ' ' :: ' ' :: '"' :: 'd' :: 'e' :: 's' :: 't' :: 'i' :: 'n' :: 'a' :: 't' :: 'i' :: 'o' :: 'n' :: 'T' :: 'a' :: 'b' :: 'l' :: 'e' :: '"' :: ':' :: ' ' :: '\x7b' :: '\n' :: ' ' :: ' ' :: ' ' :: ' ' :: ' ' :: ' ' :: ' ' :: ' ' :: '"' :: 'p' :: 'r' :: 'o' :: 'j' :: 'e' :: 'c' :: 't' :: 'I' :: 'd' :: '"' :: ':' :: ' ' :: '"' :: (P ++ ('"' :: ',' :: '\n' :: ' ' :: ' ' :: ' ' :: ' ' :: ' ' :: ' ' :: ' ' :: ' ' :: '"' :: 'd' :: 'a' :: 't' :: 'a' :: 's' :: 'e' :: 't' :: 'I' :: 'd' :: '"' :: ':' :: ' ' :: '"' :: (Ds ++ ('"' :: ',' :: '\n' :: ' ' :: ' ' :: ' ' :: ' ' :: ' ' :: ' ' :: ' ' :: ' ' :: '"' :: 't' :: 'a' :: 'b' :: 'l' :: 'e' :: 'I' :: 'd' :: '"' :: ':' :: ' ' :: '"' :: (T ++ ('"' :: '\n' :: ' ' :: ' ' :: ' ' :: ' ' :: ' ' :: ' ' :: '\x7d' :: '\n' :: ' ' :: ' ' :: ' ' :: ' ' :: '\x7d' :: '\n' :: ' ' :: ' ' :: '\x7d' :: r))))))))) = some ((Json.obj [("load".data, (Json.obj [("schema".data, (Json.obj [("fields".data, v)])), ("destinationTable".data, (Json.obj [("projectId".data, Json.str P), ("datasetId".data, Json.str Ds), ("tableId".data, Json.str T)]))]))]), r) := by
  rw [parseVal.eq_def]
  dsimp only
  simp only [dw_nl, dw_sp, dw_lb, dw_quot, if_true]
  rw [if_neg (by decide : ¬ ('"' : Char) = '\x7d')]
  rw [walk_loadMem g Sd v rS P Ds T r hS hws hP hDs hT]


/-- Walk of the `configuration` member and the closing brace of the top-level object. -/
theorem walk_configMem (g : Nat) (Sd : List Char) (v : Json) (rS : List Char)
    (P Ds T r : List Char) (hS : parseVal g Sd = some (v, rS)) (hws : List.dropWhile isWs rS = []) (hP : ∀ c ∈ P, ¬ c = '"' ∧ ¬ c = '\\') (hDs : ∀ c ∈ Ds, ¬ c = '"' ∧ ¬ c = '\\') (hT : ∀ c ∈ T, ¬ c = '"' ∧ ¬ c = '\\') :
    parseMembers (g + 11) ('\n' :: ' ' :: ' ' :: ' ' :: '"' :: 'c' :: 'o' :: 'n' :: 'f' :: 'i' :: 'g' :: 'u' :: 'r' :: 'a' :: 't' :: 'i' :: 'o' :: 'n' :: '"' :: ':' :: ' ' :: '\x7b' :: '\n' :: ' ' :: ' ' :: ' ' :: ' ' :: ' ' :: '"' :: 'l' :: 'o' :: 'a' :: 'd' :: '"' :: ':' :: ' ' :: '\x7b' :: '\n' :: ' ' :: ' ' :: ' ' :: ' ' :: ' ' :: ' ' :: ' ' :: '"' :: 's' :: 'c' :: 'h' :: 'e' :: 'm' :: 'a' :: '"' :: ':' :: ' ' :: '\x7b' :: '\n' :: ' ' :: ' ' :: ' ' :: ' ' :: ' ' :: ' ' :: ' ' :: ' ' :: ' ' :: '"' :: 'f' :: 'i' :: 'e' :: 'l' :: 'd' :: 's' :: '"' :: ':' :: ' ' :: (Sd ++ ('\n' :: ' ' :: ' ' :: ' ' :: ' ' :: ' ' :: ' ' :: '\x7d' :: ',' :: '\n' :: ' ' :: ' ' :: ' ' :: ' ' :: ' ' :: ' ' :: '"' :: 'd' :: 'e' :: 's' :: 't' :: 'i' :: 'n' :: 'a' :: 't' :: 'i' :: 'o' :: 'n' :: 'T' :: 'a' :: 'b' :: 'l' :: 'e' :: '"' :: ':' :: ' ' :: '\x7b' :: '\n' :: ' ' :: ' ' :: ' ' :: ' ' :: ' ' :: ' ' :: ' ' :: ' ' :: '"' :: 'p' :: 'r' :: 'o' :: 'j' :: 'e' :: 'c' :: 't' :: 'I' :: 'd' :: '"' :: ':' :: ' ' :: '"' :: (P ++ ('"' :: ',' :: '\n' :: ' ' :: ' ' :: ' ' :: ' ' :: ' ' :: ' ' :: ' ' :: ' ' :: '"' :: 'd' :: 'a' :: 't' :: 'a' :: 's' :: 'e' :: 't' :: 'I' :: 'd' :: '"' :: ':' :: ' ' :: '"' :: (Ds ++ ('"' :: ',' :: '\n' :: ' ' :: ' ' :: ' ' :: ' ' :: ' ' :: ' ' :: ' ' :: ' ' :: '"' :: 't' :: 'a' :: 'b' :: 'l' :: 'e' :: 'I' :: 'd' :: '"' :: ':' :: ' ' :: '"' :: (T ++ ('"' :: '\n' :: ' ' :: ' ' :: ' ' :: ' ' :: ' ' :: ' ' :: '\x7d' :: '\n' :: ' ' :: ' ' :: ' ' :: ' ' :: '\x7d' :: '\n' :: ' ' :: ' ' :: '\x7d' :: '\n' :: '\x7d' :: r))))))))) = some ([("configuration".data, (Json.obj [("load".data, (Json.obj [("schema".data, (Json.obj [("fields".data, v)])), ("destinationTable".data, (Json.obj [("projectId".data, Json.str P), ("datasetId".data, Json.str Ds), ("tableId".data, Json.str T)]))]))]))], r) := by
  rw [parseMembers.eq_def]
  dsimp only
  simp only [dw_nl, dw_sp, dw_quot, if_true]
  rw [psr_configuration]
  dsimp only
  simp only [dw_colon, if_true]
  rw [walk_configVal g Sd v rS P Ds T ('\n' :: '\x7d' :: r) hS hws hP hDs hT]
  dsimp only
  simp only [dw_nl, dw_rb]
  rw [if_neg (by decide : ¬ ('\x7d' : Char) = ',')]
  simp only [if_true]


/-- Walk of the whole configuration part: the top-level object parses to the nested configuration object, leaving the final newline. -/
theorem walk_topVal (g : Nat) (Sd : List Char) (v : Json) (rS : List Char)
    (P Ds T r : List Char) (hS : parseVal g Sd = some (v, rS)) (hws : List.dropWhile isWs rS = []) (hP : ∀ c ∈ P, ¬ c = '"' ∧ ¬ c = '\\') (hDs : ∀ c ∈ Ds, ¬ c = '"' ∧ ¬ c = '\\') (hT : ∀ c ∈ T, ¬ c = '"' ∧ ¬ c = '\\') :
    parseVal (g + 12) ('\x7b' :: '\n' :: ' ' :: ' ' :: ' ' :: '"' :: 'c' :: 'o' :: 'n' :: 'f' :: 'i' :: 'g' :: 'u' :: 'r' :: 'a' :: 't' :: 'i' :: 'o' :: 'n' :: '"' :: ':' :: ' ' :: '\x7b' :: '\n' :: ' ' :: ' ' :: ' ' :: ' ' :: ' ' :: '"' :: 'l' :: 'o' :: 'a' :: 'd' :: '"' :: ':' :: ' ' :: '\x7b' :: '\n' :: ' ' :: ' ' :: ' ' :: ' ' :: ' ' :: ' ' :: ' ' :: '"' :: 's' :: 'c' :: 'h' :: 'e' :: 'm' :: 'a' :: '"' :: ':' :: ' ' :: '\x7b' :: '\n' :: ' ' :: ' ' :: ' ' :: ' ' :: ' ' :: ' ' :: ' ' :: ' ' :: ' ' :: '"' :: 'f' :: 'i' :: 'e' :: 'l' :: 'd' :: 's' :: '"' :: ':' :: ' ' :: (Sd ++ ('\n' :: ' ' :: ' ' :: ' ' :: ' ' :: ' ' :: ' ' :: '\x7d' :: ',' :: '\n' :: ' ' :: ' ' :: ' ' :: ' ' :: ' ' :: ' ' :: '"' :: 'd' :: 'e' :: 's' :: 't' :: 'i' :: 'n' :: 'a' :: 't' :: 'i' :: 'o' :: 'n' :: 'T' :: 'a' :: 'b' :: 'l' :: 'e' :: '"' :: ':' :: ' ' :: '\x7b' :: '\n' :: ' ' :: ' ' :: ' ' :: ' ' :: ' ' :: ' ' :: ' ' :: ' ' :: '"' :: 'p' :: 'r' :: 'o' :: 'j' :: 'e' :: 'c' :: 't' :: 'I' :: 'd' :: '"' :: ':' :: ' ' :: '"' :: (P ++ ('"' :: ',' :: '\n' :: ' ' :: ' ' :: ' ' :: ' ' :: ' ' :: ' ' :: ' ' :: ' ' :: '"' :: 'd' :: 'a' :: 't' :: 'a' :: 's' :: 'e' :: 't' :: 'I' :: 'd' :: '"' :: ':' :: ' ' :: '"' :: (Ds ++ ('"' :: ',' :: '\n' :: ' ' :: ' ' :: ' ' :: ' ' :: ' ' :: ' ' :: ' ' :: ' ' :: '"' :: 't' :: 'a' :: 'b' :: 'l' :: 'e' :: 'I' :: 'd' :: '"' :: ':' :: ' ' :: '"' :: (T ++ ('"' :: '\n' :: ' ' :: ' ' :: ' ' :: ' ' :: ' ' :: ' ' :: '\x7d' :: '\n' :: ' ' :: ' ' :: ' ' :: ' ' :: '\x7d' :: '\n' :: ' ' :: ' ' :: '\x7d' :: '\n' :: '\x7d' :: r))))))))) = some ((Json.obj [("configuration".data, (Json.obj [("load".data, (Json.obj [("schema".data, (Json.obj [("fields".data, v)])), ("destinationTable".data, (Json.obj [("projectId".data, Json.str P), ("datasetId".data, Json.str Ds), ("tableId".data, Json.str T)]))]))]))]), r) := by
  rw [parseVal.eq_def]
  dsimp only
  simp only [dw_nl, dw_sp, dw_lb, dw_quot, if_true]
  rw [if_neg (by decide : ¬ ('"' : Char) = '\x7d')]
  rw [walk_configMem g Sd v rS P Ds T r hS hws hP hDs hT]

set_option maxRecDepth 8000 in
/-- Character data of the configuration part, written in the nested shape consumed by the walk lemmas. -/
theorem configPart_data (S P Ds T : String) :
    (configPart S P Ds T).data =
      ('\x7b' :: '\n' :: ' ' :: ' ' :: ' ' :: '"' :: 'c' :: 'o' :: 'n' :: 'f' :: 'i' :: 'g' :: 'u' :: 'r' :: 'a' :: 't' :: 'i' :: 'o' :: 'n' :: '"' :: ':' :: ' ' :: '\x7b' :: '\n' :: ' ' :: ' ' :: ' ' :: ' ' :: ' ' :: '"' :: 'l' :: 'o' :: 'a' :: 'd' :: '"' :: ':' :: ' ' :: '\x7b' :: '\n' :: ' ' :: ' ' :: ' ' :: ' ' :: ' ' :: ' ' :: ' ' :: '"' :: 's' :: 'c' :: 'h' :: 'e' :: 'm' :: 'a' :: '"' :: ':' :: ' ' :: '\x7b' :: '\n' :: ' ' :: ' ' :: ' ' :: ' ' :: ' ' :: ' ' :: ' ' :: ' ' :: ' ' :: '"' :: 'f' :: 'i' :: 'e' :: 'l' :: 'd' :: 's' :: '"' :: ':' :: ' ' :: (S.data ++ ('\n' :: ' ' :: ' ' :: ' ' :: ' ' :: ' ' :: ' ' :: '\x7d' :: ',' :: '\n' :: ' ' :: ' ' :: ' ' :: ' ' :: ' ' :: ' ' :: '"' :: 'd' :: 'e' :: 's' :: 't' :: 'i' :: 'n' :: 'a' :: 't' :: 'i' :: 'o' :: 'n' :: 'T' :: 'a' :: 'b' :: 'l' :: 'e' :: '"' :: ':' :: ' ' :: '\x7b' :: '\n' :: ' ' :: ' ' :: ' ' :: ' ' :: ' ' :: ' ' :: ' ' :: ' ' :: '"' :: 'p' :: 'r' :: 'o' :: 'j' :: 'e' :: 'c' :: 't' :: 'I' :: 'd' :: '"' :: ':' :: ' ' :: '"' :: (P.data ++ ('"' :: ',' :: '\n' :: ' ' :: ' ' :: ' ' :: ' ' :: ' ' :: ' ' :: ' ' :: ' ' :: '"' :: 'd' :: 'a' :: 't' :: 'a' :: 's' :: 'e' :: 't' :: 'I' :: 'd' :: '"' :: ':' :: ' ' :: '"' :: (Ds.data ++ ('"' :: ',' :: '\n' :: ' ' :: ' ' :: ' ' :: ' ' :: ' ' :: ' ' :: ' ' :: ' ' :: '"' :: 't' :: 'a' :: 'b' :: 'l' :: 'e' :: 'I' :: 'd' :: '"' :: ':' :: ' ' :: '"' :: (T.data ++ ('"' :: '\n' :: ' ' :: ' ' :: ' ' :: ' ' :: ' ' :: ' ' :: '\x7d' :: '\n' :: ' ' :: ' ' :: ' ' :: ' ' :: '\x7d' :: '\n' :: ' ' :: ' ' :: '\x7d' :: '\n' :: '\x7d' :: ['\n']))))))))) := by
  simp [configPart]

set_option maxRecDepth 8000 in
/-- Parsing the configuration part succeeds and yields exactly the nested configuration object, provided the schema text parses and the identifiers contain no double quote or backslash. -/
theorem jsonLoads_configPart (S P Ds T : String) (v : Json)
    (hS : jsonLoads S = some v)
    (hP : ∀ c ∈ P.data, ¬ c = '"' ∧ ¬ c = '\\')
    (hDs : ∀ c ∈ Ds.data, ¬ c = '"' ∧ ¬ c = '\\')
    (hT : ∀ c ∈ T.data, ¬ c = '"' ∧ ¬ c = '\\') :
    jsonLoads (configPart S P Ds T) = some (Json.obj [("configuration".data, (Json.obj [("load".data, (Json.obj [("schema".data, (Json.obj [("fields".data, v)])), ("destinationTable".data, (Json.obj [("projectId".data, Json.str P.data), ("datasetId".data, Json.str Ds.data), ("tableId".data, Json.str T.data)]))]))]))]) := by
  unfold jsonLoads at hS
  cases hp : parseVal (S.data.length + 1) S.data with
  | none => rw [hp] at hS; exact absurd hS (by simp)
  | some pr =>
    obtain ⟨v0, rS⟩ := pr
    rw [hp] at hS
    dsimp only at hS
    by_cases hws : rS.all isWs
    · rw [if_pos hws] at hS
      have hv : v0 = v := Option.some.inj hS
      rw [hv] at hp
      have hdw : List.dropWhile isWs rS = [] := by
        rw [List.dropWhile_eq_nil_iff]
        exact fun x hx => List.all_eq_true.mp hws x hx
      have hmain := walk_topVal (S.data.length + 1) S.data v rS P.data Ds.data T.data
        ['\n'] hp hdw hP hDs hT
      have hbound : S.data.length + 1 + 12 ≤ (configPart S P Ds T).data.length + 1 := by
        rw [configPart_data]
        simp
        omega
      have hfull := parseVal_mono (S.data.length + 1 + 12)
        ((configPart S P Ds T).data.length + 1) _ _ _ hmain hbound
      rw [← configPart_data S P Ds T] at hfull
      unfold jsonLoads
      rw [hfull]
      simp
      decide
    · rw [if_neg hws] at hS
      exact absurd hS (by simp)

/-- C4 (amended): when the schema text parses as JSON and the identifiers
contain no double quote or backslash, the body built by `make_post` carries the
configuration part `configPart` as its JSON part, and parsing that part yields
an object whose `configuration.load.schema.fields` is the parsed schema and
whose `configuration.load.destinationTable` is exactly the object
`\x7bprojectId: P, datasetId: Ds, tableId: T\x7d`. -/
theorem make_post_config_parses (S D P Ds T : String) (v : Json)
    (hS : jsonLoads S = some v)
    (hP : ∀ c ∈ P.data, ¬ c = '"' ∧ ¬ c = '\\')
    (hDs : ∀ c ∈ Ds.data, ¬ c = '"' ∧ ¬ c = '\\')
    (hT : ∀ c ∈ T.data, ¬ c = '"' ∧ ¬ c = '\\') :
    make_post_resource S D P Ds T = bodyHead S P Ds T ++ D ++ "--xxx--\n" ∧
    ∃ o, jsonLoads (configPart S P Ds T) = some o ∧
      ((jLook o "configuration").bind fun c => (jLook c "load").bind fun l =>
        (jLook l "schema").bind fun sc => jLook sc "fields") = some v ∧
      ((jLook o "configuration").bind fun c => (jLook c "load").bind fun l =>
        jLook l "destinationTable") = some (Json.obj [("projectId".data, Json.str P.data),
          ("datasetId".data, Json.str Ds.data), ("tableId".data, Json.str T.data)]) := by
  refine ⟨resource_split S D P Ds T, _, jsonLoads_configPart S P Ds T v hS hP hDs hT, rfl, rfl⟩


/-- C4 witness: a concrete run with schema `[]`, payload `a\n`, and identifiers
`p`, `d`, `t`. -/
theorem make_post_config_parses_witness :
    jsonLoads "[]" = some (Json.arr []) ∧
    (make_post_resource "[]" "a\n" "p" "d" "t" = bodyHead "[]" "p" "d" "t" ++ "a\n" ++ "--xxx--\n" ∧
     ∃ o, jsonLoads (configPart "[]" "p" "d" "t") = some o ∧
       ((jLook o "configuration").bind fun c => (jLook c "load").bind fun l =>
        (jLook l "schema").bind fun sc => jLook sc "fields") = some (Json.arr []) ∧
       ((jLook o "configuration").bind fun c => (jLook c "load").bind fun l =>
        jLook l "destinationTable") = some (Json.obj [("projectId".data, Json.str "p".data),
          ("datasetId".data, Json.str "d".data), ("tableId".data, Json.str "t".data)])) :=
  ⟨rfl, make_post_config_parses "[]" "a\n" "p" "d" "t" (Json.arr [])
    rfl (by decide) (by decide) (by decide)⟩


set_option maxRecDepth 4000 in
/-- C4 counterexample: the schema text `[]` is valid JSON, yet with the
project id `"` (a double quote) the configuration part of the built body does
not parse at all, so no parse of it can yield the claimed fields. -/
theorem make_post_config_parses_cex :
    jsonLoads "[]" = some (Json.arr []) ∧
    jsonLoads (configPart "[]" "\"" "d" "t") = none :=
  ⟨rfl, rfl⟩


/-- C7 (amended): when the schema text parses as JSON and the identifiers
contain no double quote or backslash, parsing the JSON part of the body built
by `make_post` back out reproduces the schema value and each destination
identifier exactly; the construction itself is a pure function of its
arguments, so the inputs are left unmodified. -/
theorem make_post_round_trip (S D P Ds T : String) (v : Json)
    (hS : jsonLoads S = some v)
    (hP : ∀ c ∈ P.data, ¬ c = '"' ∧ ¬ c = '\\')
    (hDs : ∀ c ∈ Ds.data, ¬ c = '"' ∧ ¬ c = '\\')
    (hT : ∀ c ∈ T.data, ¬ c = '"' ∧ ¬ c = '\\') :
    make_post_resource S D P Ds T = bodyHead S P Ds T ++ D ++ "--xxx--\n" ∧
    ∃ o, jsonLoads (configPart S P Ds T) = some o ∧
      ((jLook o "configuration").bind fun c => (jLook c "load").bind fun l =>
        (jLook l "schema").bind fun sc => jLook sc "fields") = jsonLoads S ∧
      ((jLook o "configuration").bind fun c => (jLook c "load").bind fun l =>
        (jLook l "destinationTable").bind fun dt => jLook dt "projectId") = some (Json.str P.data) ∧
      ((jLook o "configuration").bind fun c => (jLook c "load").bind fun l =>
        (jLook l "destinationTable").bind fun dt => jLook dt "datasetId") = some (Json.str Ds.data) ∧
      ((jLook o "configuration").bind fun c => (jLook c "load").bind fun l =>
        (jLook l "destinationTable").bind fun dt => jLook dt "tableId") = some (Json.str T.data) := by
  refine ⟨resource_split S D P Ds T, _, jsonLoads_configPart S P Ds T v hS hP hDs hT,
    by rw [hS]; rfl, rfl, rfl, rfl⟩


/-- C7 witness: a concrete round trip with schema `[]`, payload `1,2\n`, and
identifiers `p`, `d`, `t`. -/
theorem make_post_round_trip_witness :
    jsonLoads "[]" = some (Json.arr []) ∧
    (make_post_resource "[]" "1,2\n" "p" "d" "t" = bodyHead "[]" "p" "d" "t" ++ "1,2\n" ++ "--xxx--\n" ∧
     ∃ o, jsonLoads (configPart "[]" "p" "d" "t") = some o ∧
       ((jLook o "configuration").bind fun c => (jLook c "load").bind fun l =>
        (jLook l "schema").bind fun sc => jLook sc "fields") = jsonLoads "[]" ∧
       ((jLook o "configuration").bind fun c => (jLook c "load").bind fun l =>
        (jLook l "destinationTable").bind fun dt => jLook dt "projectId") = some (Json.str "p".data) ∧
       ((jLook o "configuration").bind fun c => (jLook c "load").bind fun l =>
        (jLook l "destinationTable").bind fun dt => jLook dt "datasetId") = some (Json.str "d".data) ∧
       ((jLook o "configuration").bind fun c => (jLook c "load").bind fun l =>
        (jLook l "destinationTable").bind fun dt => jLook dt "tableId") = some (Json.str "t".data)) :=
  ⟨rfl, make_post_round_trip "[]" "1,2\n" "p" "d" "t" (Json.arr [])
    rfl (by decide) (by decide) (by decide)⟩


set_option maxRecDepth 4000 in
/-- C7 counterexample: with the table id `"` (a double quote) the JSON part of
the built body does not parse back at all, so the round trip cannot reproduce
the inputs. -/
theorem make_post_round_trip_cex :
    jsonLoads "[]" = some (Json.arr []) ∧
    jsonLoads (configPart "[]" "p" "d" "\"") = none :=
  ⟨rfl, rfl⟩
